import Mathlib

/-! # IP address space model of the `ipam` inventory manager

A shallow embedding of `internal/handlers/handlers.go` (`compareIPs`, `bytesCompare`,
`HomeHandler` and `ScanSubnetHandler`, the latter with its subnet inference and its
concurrent sweep) together with `internal/models/models.go`, followed by theorems about the
dashboard's occupancy map, its aggregates and groups, the subnet inference, the address
comparison and the sweep.

Conventions of the embedding:

* a Go `string` is the list of its characters (`Str`); `==` is equality and `<` is
  `strLess`, the lexicographic order;
* a Go `map` is an association list with pairwise distinct keys (`mapGet`, `mapSet`);
  the order in which `range` visits a map is not fixed by the language, so it is an
  input: `Runtime.rangeOrder`, which may be any rearrangement of the entries;
* a Go `int` that only counts is a `Nat`, identifiers and the dashboard aggregates are `Int`;
  no quantity here comes near the 64-bit range;
* the process environment and the pieces of the Go standard library that are not spelled
  out (`IP_RANGE_START`, the IPv6 half of `net.ParseIP`, `strings.ToLower`) are the fields
  of `Runtime`; the behaviour of the HTML templates, which are not in the program text, is
  the input `TemplateOutcome` of `render`.
-/

namespace Ipam

/-- A Go string, as the list of its characters. -/
abbrev Str := List Char

/-! ## Go built-ins and standard library -/

/-- Go's `<` on strings: lexicographic comparison, a proper prefix being smaller. -/
def strLess : Str → Str → Bool
  | [], [] => false
  | [], _ :: _ => true
  | _ :: _, [] => false
  | a :: as, b :: bs =>
    if a < b then true else if b < a then false else strLess as bs

/-- `strings.ReplaceAll(s, old, "")` for a one-character `old`: every occurrence of the
character is removed. -/
def strings.ReplaceAll (s : Str) (old : Char) : Str :=
  s.filter (fun c => c ≠ old)

/-- `strings.Split(s, sep)` for a one-character separator: the pieces between the
separators; a string without separator, the empty one included, is a single piece. -/
def strings.Split : Str → Char → List Str
  | [], _ => [[]]
  | c :: cs, sep =>
    if c = sep then [] :: strings.Split cs sep
    else
      match strings.Split cs sep with
      | [] => [[c]]
      | p :: ps => (c :: p) :: ps

/-- `strings.Join(parts, sep)` for a one-character separator. -/
def strings.Join : List Str → Char → Str
  | [], _ => []
  | [p], _ => p
  | p :: q :: rest, sep => p ++ sep :: strings.Join (q :: rest) sep

/-- The `%d` verb of `fmt.Sprintf` on a non-negative integer: its decimal digits. -/
def fmtDecimal (i : Nat) : Str := Nat.toDigits 10 i

/-- `fmt.Sprintf("%s.%d", subnet, i)`. -/
def sprintfAddr (subnet : Str) (i : Nat) : Str := subnet ++ '.' :: fmtDecimal i

/-- Lookup `m[k]` in a Go map, with the presence flag as the option. -/
def mapGet {K V : Type} [DecidableEq K] : List (K × V) → K → Option V
  | [], _ => none
  | (k', v) :: rest, k => if k' = k then some v else mapGet rest k

/-- Assignment `m[k] = v` in a Go map: an existing entry is overwritten, a new key gets a
new entry. -/
def mapSet {K V : Type} [DecidableEq K] : List (K × V) → K → V → List (K × V)
  | [], k, v => [(k, v)]
  | (k', v') :: rest, k, v =>
    if k' = k then (k, v) :: rest else (k', v') :: mapSet rest k v

/-- `insertionSortLessFunc` of package `sort`, on the whole slice: each element in turn is
swapped leftwards for as long as `less` puts it before its left neighbour.  The list `rev`
is the already processed part, nearest neighbour first. -/
def insertionSortLessFunc.sink {α : Type} (less : α → α → Bool) (x : α) : List α → List α
  | [] => [x]
  | y :: ys => if less x y then y :: insertionSortLessFunc.sink less x ys else x :: y :: ys

/-- `insertionSortLessFunc(data, 0, len(data))`. -/
def insertionSortLessFunc {α : Type} (less : α → α → Bool) (data : List α) : List α :=
  (data.foldl (fun rev x => insertionSortLessFunc.sink less x rev) []).reverse

/-- `sort.Slice(data, less)`, with `less` given on elements.  The library sorts a slice of
at most 12 elements by `insertionSortLessFunc`; the embedding uses that routine at every
length. -/
def sort.Slice {α : Type} (data : List α) (less : α → α → Bool) : List α :=
  insertionSortLessFunc less data

/-! ## `net.ParseIP` -/

/-- Value of a string of decimal digits. -/
def decimalValue (p : Str) : Nat :=
  p.foldl (fun v c => v * 10 + (c.toNat - '0'.toNat)) 0

/-- One field of a dotted-decimal address as `netip.parseIPv4` accepts it: at least one
character, decimal digits only, no leading zero in front of another digit, value at most
255. -/
def isOctetField (p : Str) : Bool :=
  decide (p ≠ []) && p.all (fun c => decide ('0' ≤ c) && decide (c ≤ '9')) &&
    (decide (p.length = 1) || decide (p.head? ≠ some '0')) && decide (decimalValue p ≤ 255)

/-- The dotted-decimal parser `netip.parseIPv4` of the Go standard library: exactly four
fields separated by dots, each an `isOctetField`; the result is the four octets. -/
def parseIPv4 (s : Str) : Option (List Nat) :=
  let parts := strings.Split s '.'
  if parts.length = 4 ∧ parts.all isOctetField = true then some (parts.map decimalValue)
  else none

/-- The twelve leading bytes of the 16-byte form of an IPv4 address (`v4InV6Prefix`). -/
def v4InV6Prefix : List Nat := [0, 0, 0, 0, 0, 0, 0, 0, 0, 0, 255, 255]

/-- `net.ParseIP(s)`: `none` is Go's `nil`, otherwise the 16-byte form of the address.
As in `netip.ParseAddr`, the first `.`, `:` or `%` of the string selects the parser: a dot
the dotted-decimal one, a colon the IPv6 one (`parseIPv6`, which also rejects a zone), a
percent sign or none of the three is a failure. -/
def ParseIP (parseIPv6 : Str → Option (List Nat)) (s : Str) : Option (List Nat) :=
  match s.find? (fun c => decide (c = '.') || decide (c = ':') || decide (c = '%')) with
  | some c =>
    if c = '.' then (parseIPv4 s).map (fun o => v4InV6Prefix ++ o)
    else if c = ':' then parseIPv6 s
    else none
  | none => none

/-- `IP.To4()`: the 4-byte form of an address that is an IPv4 address, `none` (Go's `nil`)
otherwise. -/
def To4 (ip : List Nat) : Option (List Nat) :=
  if ip.length = 4 then some ip
  else if ip.length = 16 ∧ (ip.take 10).all (fun b => decide (b = 0)) = true ∧
      ip.get? 10 = some 255 ∧ ip.get? 11 = some 255 then some (ip.drop 12)
  else none

/-! ## `internal/models/models.go` -/

/-- `models.DeviceInterface`. -/
structure DeviceInterface where
  ID : Int := 0
  DeviceID : Int := 0
  IPAddress : Str := []
  MACAddress : Str := []
  Label : Str := []
  deriving DecidableEq, Repr

/-- `models.Rack` (the creation time plays no part and is kept as a number). -/
structure Rack where
  ID : Int := 0
  Name : Str := []
  Location : Str := []
  Height : Int := 0
  Status : Str := []
  CreatedAt : Int := 0
  deriving DecidableEq, Repr

/-- `models.Device` (the update time plays no part and is kept as a number). -/
structure Device where
  ID : Int := 0
  Hostname : Str := []
  DeviceType : Str := []
  RackID : Int := 0
  RackName : Str := []
  Status : Str := []
  Description : Str := []
  UpdatedAt : Int := 0
  Interfaces : List DeviceInterface := []
  deriving DecidableEq, Repr

/-! ## `internal/handlers/handlers.go` -/

/-- `handlers.IPStatus`. -/
structure IPStatus where
  IP : Str
  Octet : Nat
  Status : Str
  DeviceID : Int
  Hostname : Str
  deriving DecidableEq, Repr

/-- `handlers.RackGroup`. -/
structure RackGroup where
  Rack : Rack
  Devices : List Device
  deriving DecidableEq, Repr

/-- `handlers.DashboardData`. -/
structure DashboardData where
  RackGroups : List RackGroup
  UnassignedDevices : List Device
  Devices : List Device
  Racks : List Rack
  Subnet : Str
  IPMap : List IPStatus
  TotalIPs : Int
  UsedIPs : Int
  FreeIPs : Int
  UsagePercent : Int
  /-- The field `Sort` of the source (a reserved word here). -/
  Sort_ : Str
  Order : Str
  deriving DecidableEq, Repr

/-- What the handlers take from outside the program text. -/
structure Runtime where
  /-- The value of `os.Getenv("IP_RANGE_START")`, empty when the variable is unset. -/
  IP_RANGE_START : Str
  /-- The order in which `range` visits the entries of the per-prefix counter map. -/
  rangeOrder : List (Str × Nat) → List (Str × Nat)
  /-- The IPv6 parser behind `net.ParseIP`. -/
  parseIPv6 : Str → Option (List Nat)
  /-- The function `strings.ToLower`. -/
  ToLower : Str → Str

/-- A `range` over a map visits every entry exactly once: the visiting order is a
rearrangement of the entries. -/
def Runtime.Fair (rt : Runtime) : Prop :=
  ∀ m : List (Str × Nat), (rt.rangeOrder m).Perm m

/-- `bytesCompare`: -1, 0 or 1 as `a` is before, equal to or after `b`, byte by byte and
then by length. -/
def bytesCompare : List Nat → List Nat → Int
  | x :: xs, y :: ys =>
    if x < y then -1 else if x > y then 1 else bytesCompare xs ys
  | [], _ :: _ => -1
  | _ :: _, [] => 1
  | [], [] => 0

/-- `compareIPs`. -/
def compareIPs (parseIPv6 : Str → Option (List Nat)) (ip1 ip2 : Str) : Bool :=
  match ParseIP parseIPv6 ip1, ParseIP parseIPv6 ip2 with
  | some p1, some p2 =>
    match To4 p1, To4 p2 with
    | some p14, some p24 => decide (bytesCompare p14 p24 < 0)
    | _, _ => decide (bytesCompare p1 p2 < 0)
  | _, _ => strLess ip1 ip2

/-! ### `HomeHandler` -/

/-- The closure `getIP` of the two sort comparators: the address of the first interface,
the empty string for a device without interface. -/
def getIP (d : Device) : Str :=
  match d.Interfaces with
  | [] => []
  | iface :: _ => iface.IPAddress

/-- The comparator that `HomeHandler` hands to `sort.Slice` (the same text for the rack
groups and for the unassigned devices), on the two devices it compares.  The default
branch of the `switch` returns at once, before the `desc` test. -/
def sortLess (rt : Runtime) (sortBy sortOrder : Str) (dev1 dev2 : Device) : Bool :=
  if sortBy = "ip".toList then
    let less := compareIPs rt.parseIPv6 (getIP dev1) (getIP dev2)
    if sortOrder = "desc".toList then !less else less
  else if sortBy = "hostname".toList then
    let less := strLess (rt.ToLower dev1.Hostname) (rt.ToLower dev2.Hostname)
    if sortOrder = "desc".toList then !less else less
  else decide (dev1.ID < dev2.ID)

/-- The grouping loop: `rackDevicesMap` and `unassignedDevices`. -/
def groupDevices (devices : List Device) : List (Int × List Device) × List Device :=
  devices.foldl
    (fun st d =>
      if d.RackID ≠ 0 then
        (mapSet st.1 d.RackID ((mapGet st.1 d.RackID).getD [] ++ [d]), st.2)
      else (st.1, st.2 ++ [d]))
    ([], [])

/-- The loop over `racks` that builds `rackGroups`, empty racks included. -/
def buildRackGroups (racks : List Rack) (rackDevicesMap : List (Int × List Device)) :
    List RackGroup :=
  racks.foldl
    (fun groups rack =>
      match mapGet rackDevicesMap rack.ID with
      | some devs => groups ++ [{ Rack := rack, Devices := devs }]
      | none => groups ++ [{ Rack := rack, Devices := [] }])
    []

/-- The three maps filled by the loop over all interfaces. -/
structure AddrTables where
  subnetCounts : List (Str × Nat)
  usedIPs : List (Str × Device)
  usedIPsInterface : List (Str × DeviceInterface)
  deriving DecidableEq, Repr

/-- Body of the inner loop of `HomeHandler` for interface `iface` of device `d`. -/
def collectIface (d : Device) (t : AddrTables) (iface : DeviceInterface) : AddrTables :=
  if iface.IPAddress = [] then t
  else
    let ipRaw := strings.ReplaceAll iface.IPAddress ' '
    let parts := strings.Split ipRaw '.'
    if parts.length = 4 then
      let subnet := strings.Join (parts.take 3) '.'
      { subnetCounts := mapSet t.subnetCounts subnet ((mapGet t.subnetCounts subnet).getD 0 + 1)
        usedIPs := mapSet t.usedIPs ipRaw d
        usedIPsInterface := mapSet t.usedIPsInterface ipRaw iface }
    else t

/-- The loop of `HomeHandler` over the interfaces of all devices. -/
def collectAddresses (devices : List Device) : AddrTables :=
  devices.foldl (fun t d => d.Interfaces.foldl (collectIface d) t) ⟨[], [], []⟩

/-- The default subnet: `IP_RANGE_START`, or `192.168.1` when that is empty. -/
def defaultSubnet (rt : Runtime) : Str :=
  if rt.IP_RANGE_START = [] then "192.168.1".toList else rt.IP_RANGE_START

/-- One step of the selection loop on the pair `(maxCount, targetSubnet)`. -/
def selectStep (st : Nat × Str) (e : Str × Nat) : Nat × Str :=
  if e.2 > st.1 then (e.2, e.1) else st

/-- The selection of `targetSubnet`: starting from the default and `maxCount = 1`, the
counters are visited in the order of the runtime and a strictly greater one takes over. -/
def selectSubnet (rt : Runtime) (subnetCounts : List (Str × Nat)) : Str :=
  ((rt.rangeOrder subnetCounts).foldl selectStep (1, defaultSubnet rt)).2

/-- The entry that the loop `for i := 1; i <= 254; i++` appends to `ipMap` in turn `i`. -/
def ipSlot (usedIPs : List (Str × Device)) (targetSubnet : Str) (i : Nat) : IPStatus :=
  let ip := sprintfAddr targetSubnet i
  match mapGet usedIPs ip with
  | some device =>
    { IP := ip, Octet := i,
      Status := if device.Status = "Reserved".toList then "Reserved".toList else "Used".toList,
      DeviceID := device.ID, Hostname := device.Hostname }
  | none => { IP := ip, Octet := i, Status := "Free".toList, DeviceID := 0, Hostname := [] }

/-- One turn of that loop on the pair `(ipMap, usedCount)`: the entry is appended and the
counter goes up when the address was found in `usedIPs`. -/
def ipMapStep (usedIPs : List (Str × Device)) (targetSubnet : Str)
    (st : List IPStatus × Int) (i : Nat) : List IPStatus × Int :=
  (st.1 ++ [ipSlot usedIPs targetSubnet i],
   if (mapGet usedIPs (sprintfAddr targetSubnet i)).isSome then st.2 + 1 else st.2)

/-- The loop that builds `ipMap` and `usedCount`. -/
def buildIPMap (usedIPs : List (Str × Device)) (targetSubnet : Str) : List IPStatus × Int :=
  (List.range' 1 254).foldl (ipMapStep usedIPs targetSubnet) ([], 0)

/-- The part of `HomeHandler` after the two reads of the record store: the value handed
to the template for devices `devices`, racks `racks` and the query parameters `sort` and
`order`. -/
def dashboardData (rt : Runtime) (sortParam orderParam : Str) (devices : List Device)
    (racks : List Rack) : DashboardData :=
  let grouped := groupDevices devices
  let rackGroups := buildRackGroups racks grouped.1
  let sortBy := sortParam
  let sortOrder := if orderParam = [] then "asc".toList else orderParam
  let rackGroups := rackGroups.map
    (fun g => { g with Devices := sort.Slice g.Devices (sortLess rt sortBy sortOrder) })
  let unassignedDevices :=
    if grouped.2.length > 0 then sort.Slice grouped.2 (sortLess rt sortBy sortOrder)
    else grouped.2
  let tables := collectAddresses devices
  let targetSubnet := selectSubnet rt tables.subnetCounts
  let built := buildIPMap tables.usedIPs targetSubnet
  { RackGroups := rackGroups
    UnassignedDevices := unassignedDevices
    Devices := devices
    Racks := racks
    Subnet := targetSubnet
    IPMap := built.1
    TotalIPs := 254
    UsedIPs := built.2
    FreeIPs := 254 - built.2
    UsagePercent := (built.2 * 100).tdiv 254
    Sort_ := sortBy
    Order := sortOrder }

/-- What a handler writes: an error status with its message, a rendered view, or what is
left of a view whose execution failed. -/
inductive Response where
  | httpError (msg : Str) (status : Nat)
  | rendered (view : Str) (data : DashboardData)
  /-- The call `ts.ExecuteTemplate` returned an error: whatever it had written of the page,
  followed by the text of `http.Error(w, "Internal Server Error", 500)`. -/
  | aborted (view : Str) (data : DashboardData)
  deriving DecidableEq, Repr

/-- How the templates `layout.html` and the view behave in one call of `render`: the files
are not in the program text, so their behaviour is an input. -/
inductive TemplateOutcome where
  /-- The call `template.ParseFiles` returned an error. -/
  | parseFailed
  /-- The files were parsed and `ts.ExecuteTemplate` returned an error. -/
  | executeFailed
  /-- The files were parsed and executed without error. -/
  | ok
  deriving DecidableEq, Repr

/-- `render`: the layout and the view are parsed and the layout is executed on `data`; a
parse error is answered with status 500, an execution error with the same call of
`http.Error` after the part of the page already written. -/
def render (template : TemplateOutcome) (view : Str) (data : DashboardData) : Response :=
  match template with
  | .parseFailed => .httpError "Internal Server Error".toList 500
  | .executeFailed => .aborted view data
  | .ok => .rendered view data

/-- `HomeHandler`, on the outcomes of `db.GetAllDevices()` and `db.GetAllRacks()` and the
behaviour of the templates.  A failed device read ends the request with status 500; a
failed rack read is logged only and the handler goes on with the `nil` slice that came with
the error; the last statement is the call of `render`. -/
def HomeHandler (rt : Runtime) (sortParam orderParam : Str) (template : TemplateOutcome)
    (devicesResult : Except Str (List Device)) (racksResult : Except Str (List Rack)) :
    Response :=
  match devicesResult with
  | .error _ => .httpError "Could not fetch devices".toList 500
  | .ok devices =>
    let racks := match racksResult with
      | .ok racks => racks
      | .error _ => []
    render template "index.html".toList (dashboardData rt sortParam orderParam devices racks)

/-! ### `ScanSubnetHandler`: subnet inference -/

/-- Body of the inner loop of `ScanSubnetHandler` (no test for the empty address here). -/
def scanCountIface (subnetCounts : List (Str × Nat)) (iface : DeviceInterface) :
    List (Str × Nat) :=
  let ipRaw := strings.ReplaceAll iface.IPAddress ' '
  let parts := strings.Split ipRaw '.'
  if parts.length = 4 then
    let subnet := strings.Join (parts.take 3) '.'
    mapSet subnetCounts subnet ((mapGet subnetCounts subnet).getD 0 + 1)
  else subnetCounts

/-- The counting loop of `ScanSubnetHandler`. -/
def scanSubnetCounts (devices : List Device) : List (Str × Nat) :=
  devices.foldl (fun m d => d.Interfaces.foldl scanCountIface m) []

/-- The `targetSubnet` that `ScanSubnetHandler` sweeps. -/
def scanTargetSubnet (rt : Runtime) (devices : List Device) : Str :=
  selectSubnet rt (scanSubnetCounts devices)

/-! ### `ScanSubnetHandler`: the concurrent sweep

The 254 goroutines of the sweep are embedded as a transition system.  A goroutine is
identified by its octet; it takes three steps, each of them one blocking or effectful
statement of its body: the send `sem <- struct{}{}`, the call `cmd.Start()`, and the
`select` between the timer and `cmd.Wait()`.  The deferred `<-sem` and `wg.Done()` run with
the step in which the goroutine returns, the append to `activeIPs` is atomic under the
mutex.  An execution is the list of the octets whose goroutines take the successive steps;
how the probe of an address turns out is an input. -/

/-- How the probe of one address turns out. -/
inductive ProbeOutcome where
  /-- The call `cmd.Start()` returned an error. -/
  | startFailed
  /-- The process ended before the deadline and `cmd.Wait()` returned an error. -/
  | nonZeroExit
  /-- The timer of 500 ms fired first and the process was killed. -/
  | timedOut
  /-- The process ended before the deadline and `cmd.Wait()` returned `nil`. -/
  | exitedOk
  deriving DecidableEq, Repr

/-- The state of the sweep. -/
structure ScanState where
  /-- The goroutines that have not yet passed `sem <- struct{}{}`. -/
  spawned : List Nat
  /-- The goroutines that hold a slot of `sem` and have not yet called `cmd.Start()`. -/
  admitted : List Nat
  /-- The goroutines whose probe is started and that wait in the `select`. -/
  probing : List Nat
  /-- The number of elements in the channel `sem`, whose capacity is 20. -/
  sem : Nat
  /-- The counter of the wait group. -/
  wg : Nat
  /-- The addresses on which `cmd.Start()` has been called, in the order of the calls. -/
  started : List Str
  /-- The slice `activeIPs`. -/
  activeIPs : List Str
  deriving DecidableEq, Repr

/-- The state once the loop `for i := 1; i <= 254; i++` has done `wg.Add(1)` and `go` for
every octet. -/
def scanInit : ScanState :=
  { spawned := List.range' 1 254, admitted := [], probing := [], sem := 0, wg := 254,
    started := [], activeIPs := [] }

/-- One step of the goroutine of `octet`, `none` when that goroutine cannot move: it is
blocked on the full channel, or it has returned, or there is no such goroutine. -/
def scanStep (targetSubnet : Str) (outcome : Nat → ProbeOutcome) (st : ScanState)
    (octet : Nat) : Option ScanState :=
  if octet ∈ st.spawned then
    if st.sem < 20 then
      some { st with spawned := st.spawned.erase octet, admitted := octet :: st.admitted,
                     sem := st.sem + 1 }
    else none
  else if octet ∈ st.admitted then
    if outcome octet = .startFailed then
      some { st with admitted := st.admitted.erase octet, sem := st.sem - 1, wg := st.wg - 1,
                     started := st.started ++ [sprintfAddr targetSubnet octet] }
    else
      some { st with admitted := st.admitted.erase octet, probing := octet :: st.probing,
                     started := st.started ++ [sprintfAddr targetSubnet octet] }
  else if octet ∈ st.probing then
    some { st with probing := st.probing.erase octet, sem := st.sem - 1, wg := st.wg - 1,
                   activeIPs :=
                     if outcome octet = .exitedOk then
                       st.activeIPs ++ [sprintfAddr targetSubnet octet]
                     else st.activeIPs }
  else none

/-- The state after the steps of `schedule`, `none` when one of them cannot be taken. -/
def scanRun (targetSubnet : Str) (outcome : Nat → ProbeOutcome) :
    ScanState → List Nat → Option ScanState
  | st, [] => some st
  | st, octet :: rest =>
    match scanStep targetSubnet outcome st octet with
    | some st' => scanRun targetSubnet outcome st' rest
    | none => none

/-- What `ScanSubnetHandler` writes: an error status, or the JSON object with the fields
`success` and `active_ips`. -/
inductive ScanReply where
  | httpError (msg : Str) (status : Nat)
  | json (success : Bool) (activeIPs : List Str)
  deriving DecidableEq, Repr

/-- `ScanSubnetHandler` on the outcome of `db.GetAllDevices()`, the outcomes of the probes
and an execution of the goroutines.  The reply is written after `wg.Wait()`, that is once
the counter of the wait group is zero; `none` means that `schedule` is not a complete
execution. -/
def ScanSubnetHandler (rt : Runtime) (outcome : Nat → ProbeOutcome) (schedule : List Nat)
    (devicesResult : Except Str (List Device)) : Option ScanReply :=
  match devicesResult with
  | .error _ => some (.httpError "Could not fetch devices".toList 500)
  | .ok devices =>
    match scanRun (scanTargetSubnet rt devices) outcome scanInit schedule with
    | some st => if st.wg = 0 then some (.json true st.activeIPs) else none
    | none => none

/-- The execution in which the goroutines run one after the other, in the order of their
octets. -/
def sequentialSchedule : List Nat :=
  (List.range' 1 254).flatMap (fun i => [i, i, i])

/-- Probe outcomes for the examples: the even octets answer, the octets divisible by three
among the others time out, the remaining ones exit with an error. -/
def sampleOutcome (i : Nat) : ProbeOutcome :=
  if i % 2 = 0 then .exitedOk else if i % 3 = 0 then .timedOut else .nonZeroExit

/-! ## Vocabulary of the statements -/

/-- Every `(device, interface)` pair in the order in which the loops of the handlers meet
them: devices in list order, the interfaces of each device in order. -/
def interfacePairs (devices : List Device) : List (Device × DeviceInterface) :=
  devices.flatMap (fun d => d.Interfaces.map (fun iface => (d, iface)))

/-- The normalized address of an interface is `addr` and has four dot-separated
components. -/
def claimsAddr (addr : Str) (iface : DeviceInterface) : Bool :=
  decide ((strings.Split (strings.ReplaceAll iface.IPAddress ' ') '.').length = 4) &&
    decide (strings.ReplaceAll iface.IPAddress ' ' = addr)

/-- The devices that have an interface claiming `addr`, one entry per such interface, in
the order of `interfacePairs`. -/
def holders (devices : List Device) (addr : Str) : List Device :=
  ((interfacePairs devices).filter (fun p => claimsAddr addr p.2)).map (fun p => p.1)

/-- The normalized address of an interface has four dot-separated components, the first
three of which, joined by dots, are `p`. -/
def hasPrefix (p : Str) (iface : DeviceInterface) : Bool :=
  decide ((strings.Split (strings.ReplaceAll iface.IPAddress ' ') '.').length = 4) &&
    decide (strings.Join ((strings.Split (strings.ReplaceAll iface.IPAddress ' ') '.').take 3)
      '.' = p)

/-- The counter of prefix `p`: the number of interfaces with that prefix. -/
def prefixCount (devices : List Device) (p : Str) : Nat :=
  ((interfacePairs devices).filter (fun q => hasPrefix p q.2)).length

/-- A string of exactly three dot-separated components, each a non-empty run of decimal
digits. -/
def isThreeNumeric (s : Str) : Bool :=
  decide ((strings.Split s '.').length = 3) &&
    (strings.Split s '.').all
      (fun p => decide (p ≠ []) && p.all (fun c => decide ('0' ≤ c) && decide (c ≤ '9')))

/-- A runtime for the examples: no `IP_RANGE_START`, the counter map visited in the order
of its entries, no IPv6 address recognised, ASCII lower-casing. -/
def plainRuntime : Runtime :=
  { IP_RANGE_START := []
    rangeOrder := fun m => m
    parseIPv6 := fun _ => none
    ToLower := fun s => s.map Char.toLower }

/-- An unassigned device with the given identifier, status and interface addresses. -/
def sampleDevice (id : Int) (status : String) (addrs : List String) : Device :=
  { ID := id, Status := status.toList,
    Interfaces := addrs.map (fun a => { IPAddress := a.toList }) }

/-- The invariant of the counter map: distinct keys, and no entry with counter zero. -/
def CountsOk (m : List (Str × Nat)) : Prop :=
  (m.map Prod.fst).Nodup ∧ ∀ e ∈ m, 0 < e.2

/-- Two devices recorded with the same address, the first `Reserved`, the second `Online`. -/
def duplicateDevices : List Device :=
  [sampleDevice 1 "Reserved" ["10.0.0.5"], sampleDevice 2 "Online" ["10.0.0.5"]]

/-- The runtime of the examples with the counter map visited in the opposite order. -/
def reversingRuntime : Runtime :=
  { plainRuntime with rangeOrder := fun m => m.reverse }

/-- One device with a single well-formed address, a malformed one and an empty one. -/
def strayDevices : List Device :=
  [sampleDevice 1 "Online" ["10.9.9.9", "garbage", ""]]

/-- Three devices: two in `10.0.0`, one in `172.16.0`. -/
def mixedDevices : List Device :=
  [sampleDevice 1 "Online" ["172.16.0.1"], sampleDevice 2 "Online" ["10.0.0.5"],
    sampleDevice 3 "Reserved" ["10.0.0. 6"]]

/-- Two devices whose addresses have four components that are not numbers. -/
def alphaDevices : List Device :=
  [sampleDevice 1 "Online" ["a.b.c.1"], sampleDevice 2 "Online" ["a.b.c.2"]]

/-- The runtime of the examples with `IP_RANGE_START` set to the two-component `10.0`. -/
def shortDefaultRuntime : Runtime :=
  { plainRuntime with IP_RANGE_START := "10.0".toList }

/-- Three unassigned devices recorded, in this order, at `10.0.0.2`, `10.0.0.10` and
`10.0.0.1`. -/
def unsortedDevices : List Device :=
  [sampleDevice 1 "Online" ["10.0.0.2"], sampleDevice 2 "Online" ["10.0.0.10"],
    sampleDevice 3 "Online" ["10.0.0.1"]]

/-- Two unassigned devices in record-store order: identifier 2 first, then identifier 1. -/
def newestFirstDevices : List Device :=
  [sampleDevice 2 "Online" ["10.0.0.2"], sampleDevice 1 "Online" ["10.0.0.1"]]

/-- Two devices of rack 7 in record-store order: identifier 2 first, then identifier 1. -/
def rackedDevices : List Device :=
  [{ ID := 2, RackID := 7 }, { ID := 1, RackID := 7 }]

/-- Three unassigned devices named, in record-store order, `b`, `c` and `a`. -/
def namedDevices : List Device :=
  [{ ID := 1, Hostname := "b".toList }, { ID := 2, Hostname := "c".toList },
    { ID := 3, Hostname := "a".toList }]

/-- Four devices, two in `10.0.0` and two in `10.0.1`: both prefixes have counter 2. -/
def tiedDevices : List Device :=
  [sampleDevice 1 "Online" ["10.0.0.1"], sampleDevice 2 "Online" ["10.0.0.2"],
    sampleDevice 3 "Online" ["10.0.1.1"], sampleDevice 4 "Online" ["10.0.1.2"]]

/-- The candidate prefixes of all interfaces with a four-component normalized address, one
entry per interface, in loop order. -/
def validPrefixes (devices : List Device) : List Str :=
  (interfacePairs devices).filterMap (fun q =>
    if (strings.Split (strings.ReplaceAll q.2.IPAddress ' ') '.').length = 4 then
      some (strings.Join ((strings.Split (strings.ReplaceAll q.2.IPAddress ' ') '.').take 3) '.')
    else none)

/-- A device whose only interface has the given address. -/
def deviceAt (addr : String) : Device :=
  { Interfaces := [{ IPAddress := addr.toList }] }

/-- The only device of rack 9. -/
def orphanDevices : List Device :=
  [{ ID := 1, RackID := 9 }]

/-- The tables `racks` and `devices` of the record store, a row of `devices` being taken
together with its interfaces. -/
structure Store where
  racks : List Rack
  devices : List Device
  deriving DecidableEq, Repr

/-- `db.DeleteRack`: the single statement `DELETE FROM racks WHERE id=?`.  The connection
is opened by `sql.Open("sqlite3", filepath)` without any foreign-key setting, and SQLite
then takes no action on `ON DELETE SET NULL`: the rows of `devices` stay as they are. -/
def DeleteRack (store : Store) (id : Int) : Store :=
  { store with racks := store.racks.filter (fun r => decide (r.ID ≠ id)) }

/-- A record store with rack 9 and its only device. -/
def rackNineStore : Store :=
  { racks := [{ ID := 9 }], devices := orphanDevices }

/-- The invariant of the sweep for target subnet `s`: the channel holds one element per
goroutine between its send and its return, the wait group counts the goroutines that have
not returned, the channel is never over its capacity, no goroutine is at two places of its
body, every address is either still to be
started or in the log of the started ones, and every address whose probe answers is either
still on its way or in `activeIPs`. -/
def ScanInv (s : Str) (outcome : Nat → ProbeOutcome) (st : ScanState) : Prop :=
  st.sem = st.admitted.length + st.probing.length ∧
  st.wg = st.spawned.length + st.admitted.length + st.probing.length ∧
  st.sem ≤ 20 ∧
  (st.spawned ++ st.admitted ++ st.probing).Nodup ∧
  (((st.spawned ++ st.admitted).map (sprintfAddr s)) ++ st.started).Perm
    ((List.range' 1 254).map (sprintfAddr s)) ∧
  ((((st.spawned ++ st.admitted ++ st.probing).filter
      (fun i => decide (outcome i = .exitedOk))).map (sprintfAddr s)) ++ st.activeIPs).Perm
    (((List.range' 1 254).filter (fun i => decide (outcome i = .exitedOk))).map
      (sprintfAddr s))

/-- The number of steps that the goroutines still have to take at most. -/
def scanMeasure (st : ScanState) : Nat :=
  3 * st.spawned.length + 2 * st.admitted.length + st.probing.length

/-- The state in which the goroutines of the octets 1 to 20 hold the 20 slots and no probe
is started yet. -/
def saturatedState : ScanState :=
  { spawned := List.range' 21 234, admitted := (List.range' 1 20).reverse, probing := [],
    sem := 20, wg := 254, started := [], activeIPs := [] }

/-! ## Theorems -/

/-! ### The occupancy map (`buildIPMap`) -/

theorem foldl_ipMapStep (u : List (Str × Device)) (s : Str) (l : List Nat)
    (st : List IPStatus × Int) :
    l.foldl (ipMapStep u s) st =
      (st.1 ++ l.map (ipSlot u s),
       st.2 + ((l.filter (fun i => (mapGet u (sprintfAddr s i)).isSome)).length : Int)) := by
  induction l generalizing st with
  | nil => simp
  | cons i l ih =>
    rw [List.foldl_cons, ih]
    by_cases h : (mapGet u (sprintfAddr s i)).isSome = true
    · simp [ipMapStep, h]; omega
    · simp [ipMapStep, h]

theorem buildIPMap_fst (u : List (Str × Device)) (s : Str) :
    (buildIPMap u s).1 = (List.range' 1 254).map (ipSlot u s) := by
  simp [buildIPMap, foldl_ipMapStep]

theorem buildIPMap_snd (u : List (Str × Device)) (s : Str) :
    (buildIPMap u s).2 =
      (((List.range' 1 254).filter
        (fun i => (mapGet u (sprintfAddr s i)).isSome)).length : Int) := by
  simp [buildIPMap, foldl_ipMapStep]

theorem ipSlot_Octet (u : List (Str × Device)) (s : Str) (i : Nat) :
    (ipSlot u s i).Octet = i := by
  unfold ipSlot; dsimp only; split <;> rfl

theorem ipSlot_IP (u : List (Str × Device)) (s : Str) (i : Nat) :
    (ipSlot u s i).IP = sprintfAddr s i := by
  unfold ipSlot; dsimp only; split <;> rfl

theorem ipSlot_free_iff (u : List (Str × Device)) (s : Str) (i : Nat) :
    (ipSlot u s i).Status = "Free".toList ↔ mapGet u (sprintfAddr s i) = none := by
  unfold ipSlot; dsimp only
  split
  · rename_i d hd
    simp only [hd]
    constructor
    · intro h
      split at h
      · exact absurd h (by decide)
      · exact absurd h (by decide)
    · intro h; cases h
  · rename_i hd; simp [hd]

theorem dashboardData_IPMap (rt : Runtime) (sortParam orderParam : Str)
    (devices : List Device) (racks : List Rack) :
    (dashboardData rt sortParam orderParam devices racks).IPMap =
      (List.range' 1 254).map
        (ipSlot (collectAddresses devices).usedIPs
          (dashboardData rt sortParam orderParam devices racks).Subnet) := by
  simp [dashboardData, buildIPMap_fst]

theorem dashboardData_slot (rt : Runtime) (sortParam orderParam : Str)
    (devices : List Device) (racks : List Rack) (i : Nat) (h1 : 1 ≤ i) (h2 : i ≤ 254) :
    (dashboardData rt sortParam orderParam devices racks).IPMap.get? (i - 1) =
      some (ipSlot (collectAddresses devices).usedIPs
        (dashboardData rt sortParam orderParam devices racks).Subnet i) := by
  have hr : (List.range' 1 254)[i - 1]? = some i := by
    rw [List.getElem?_range' 1 1 (by omega)]
    simp; omega
  rw [dashboardData_IPMap, List.get?_eq_getElem?, List.getElem?_map, hr]
  rfl

theorem collectAddresses_nil : collectAddresses [] = ⟨[], [], []⟩ := rfl

theorem dashboardData_UsedIPs (rt : Runtime) (sortParam orderParam : Str)
    (devices : List Device) (racks : List Rack) :
    (dashboardData rt sortParam orderParam devices racks).UsedIPs =
      ((((dashboardData rt sortParam orderParam devices racks).IPMap.filter
        (fun e => decide (e.Status ≠ "Free".toList))).length : Nat) : Int) := by
  rw [dashboardData_IPMap, List.filter_map, List.length_map]
  have hfun : ((fun e : IPStatus => decide (e.Status ≠ "Free".toList)) ∘
      ipSlot (collectAddresses devices).usedIPs
        (dashboardData rt sortParam orderParam devices racks).Subnet) =
      (fun i => (mapGet (collectAddresses devices).usedIPs
        (sprintfAddr (dashboardData rt sortParam orderParam devices racks).Subnet i)).isSome) := by
    funext i
    simp only [Function.comp, ne_eq, ipSlot_free_iff]
    cases mapGet (collectAddresses devices).usedIPs
      (sprintfAddr (dashboardData rt sortParam orderParam devices racks).Subnet i) <;> simp
  rw [hfun]
  simp [dashboardData, buildIPMap_snd]

/-- C1: for every device list the IP map built by `HomeHandler` has exactly 254 entries;
for every `i` in 1..254 the `i`-th entry has `Octet = i` and `IP = s + "." + decimal(i)`
for the inferred subnet `s`, so the host octets are 1..254 in strictly ascending order;
for the empty device list every entry is `Free`. -/
theorem C1_ipmap_has_254_ordered_slots (rt : Runtime) (sortParam orderParam : Str)
    (devices : List Device) (racks : List Rack) :
    (dashboardData rt sortParam orderParam devices racks).IPMap.length = 254 ∧
    (∀ i : Nat, 1 ≤ i → i ≤ 254 →
      ∃ e, (dashboardData rt sortParam orderParam devices racks).IPMap.get? (i - 1) = some e ∧
        e.Octet = i ∧
        e.IP = (dashboardData rt sortParam orderParam devices racks).Subnet ++
          ".".toList ++ (Nat.repr i).toList) ∧
    (dashboardData rt sortParam orderParam devices racks).IPMap.map (fun e => e.Octet) =
      List.range' 1 254 ∧
    List.Pairwise (fun a b => a < b)
      ((dashboardData rt sortParam orderParam devices racks).IPMap.map (fun e => e.Octet)) ∧
    (∀ e ∈ (dashboardData rt sortParam orderParam [] racks).IPMap,
      e.Status = "Free".toList) := by
  have hoct : (dashboardData rt sortParam orderParam devices racks).IPMap.map
      (fun e => e.Octet) = List.range' 1 254 := by
    rw [dashboardData_IPMap, List.map_map]
    have : ((fun e : IPStatus => e.Octet) ∘ ipSlot (collectAddresses devices).usedIPs
        (dashboardData rt sortParam orderParam devices racks).Subnet) = id := by
      funext i; simp [ipSlot_Octet]
    rw [this, List.map_id]
  refine ⟨?_, ?_, hoct, ?_, ?_⟩
  · rw [dashboardData_IPMap]; simp
  · intro i h1 h2
    refine ⟨_, dashboardData_slot rt sortParam orderParam devices racks i h1 h2,
      ipSlot_Octet _ _ _, ?_⟩
    rw [ipSlot_IP]
    simp [sprintfAddr, fmtDecimal, Nat.repr, String.toList, List.asString]
  · rw [hoct]
    exact List.pairwise_lt_range' 1 254
  · intro e he
    rw [dashboardData_IPMap, collectAddresses_nil] at he
    obtain ⟨i, _, rfl⟩ := List.mem_map.1 he
    exact (ipSlot_free_iff _ _ _).2 rfl

/-- C4: the dashboard aggregates: `TotalIPs` is 254, `UsedIPs` is the number of slots of the
IP map that are not `Free`, `FreeIPs = 254 - UsedIPs`, so that they add up to 254 and
`UsedIPs` lies in 0..254, and `UsagePercent` is `UsedIPs * 100 / 254` rounded down
(127 used gives 50, 1 used gives 0, 254 used gives 100). -/
theorem C4_dashboard_aggregates (rt : Runtime) (sortParam orderParam : Str)
    (devices : List Device) (racks : List Rack) :
    (dashboardData rt sortParam orderParam devices racks).TotalIPs = 254 ∧
    (dashboardData rt sortParam orderParam devices racks).UsedIPs =
      ((((dashboardData rt sortParam orderParam devices racks).IPMap.filter
        (fun e => decide (e.Status ≠ "Free".toList))).length : Nat) : Int) ∧
    (dashboardData rt sortParam orderParam devices racks).FreeIPs =
      254 - (dashboardData rt sortParam orderParam devices racks).UsedIPs ∧
    (dashboardData rt sortParam orderParam devices racks).UsedIPs +
      (dashboardData rt sortParam orderParam devices racks).FreeIPs = 254 ∧
    0 ≤ (dashboardData rt sortParam orderParam devices racks).UsedIPs ∧
    (dashboardData rt sortParam orderParam devices racks).UsedIPs ≤ 254 ∧
    (dashboardData rt sortParam orderParam devices racks).UsagePercent =
      (dashboardData rt sortParam orderParam devices racks).UsedIPs * 100 / 254 ∧
    ((dashboardData rt sortParam orderParam devices racks).UsedIPs = 127 →
      (dashboardData rt sortParam orderParam devices racks).UsagePercent = 50) ∧
    ((dashboardData rt sortParam orderParam devices racks).UsedIPs = 1 →
      (dashboardData rt sortParam orderParam devices racks).UsagePercent = 0) ∧
    ((dashboardData rt sortParam orderParam devices racks).UsedIPs = 254 →
      (dashboardData rt sortParam orderParam devices racks).UsagePercent = 100) := by
  have hused := dashboardData_UsedIPs rt sortParam orderParam devices racks
  have hlen : ((dashboardData rt sortParam orderParam devices racks).IPMap.filter
      (fun e => decide (e.Status ≠ "Free".toList))).length ≤ 254 := by
    refine le_trans (List.length_filter_le _ _) ?_
    rw [dashboardData_IPMap]; simp
  have hfree : (dashboardData rt sortParam orderParam devices racks).FreeIPs =
      254 - (dashboardData rt sortParam orderParam devices racks).UsedIPs := rfl
  have hpct : (dashboardData rt sortParam orderParam devices racks).UsagePercent =
      ((dashboardData rt sortParam orderParam devices racks).UsedIPs * 100).tdiv 254 := rfl
  have h0 : 0 ≤ (dashboardData rt sortParam orderParam devices racks).UsedIPs := by
    rw [hused]; omega
  have hdiv : (dashboardData rt sortParam orderParam devices racks).UsagePercent =
      (dashboardData rt sortParam orderParam devices racks).UsedIPs * 100 / 254 := by
    rw [hpct]
    exact Int.tdiv_eq_ediv (by omega) (by omega)
  refine ⟨rfl, hused, hfree, by omega, h0, by omega, hdiv, ?_, ?_, ?_⟩ <;>
    intro h <;> rw [hdiv, h] <;> rfl

/-! ### Go maps as association lists -/

theorem mapGet_mapSet {K V : Type} [DecidableEq K] (m : List (K × V)) (k k' : K) (v : V) :
    mapGet (mapSet m k v) k' = if k = k' then some v else mapGet m k' := by
  induction m with
  | nil => simp [mapSet, mapGet]
  | cons e m ih =>
    obtain ⟨a, b⟩ := e
    by_cases h : a = k
    · subst h
      by_cases h' : a = k' <;> simp [mapSet, mapGet, h']
    · by_cases h' : a = k'
      · subst h'
        have : ¬ k = a := fun e => h e.symm
        simp [mapSet, mapGet, h, this]
      · simp [mapSet, mapGet, h, h', ih]

theorem mapSet_keys {K V : Type} [DecidableEq K] (m : List (K × V)) (k : K) (v : V) :
    (mapSet m k v).map Prod.fst =
      if k ∈ m.map Prod.fst then m.map Prod.fst else m.map Prod.fst ++ [k] := by
  induction m with
  | nil => simp [mapSet]
  | cons e m ih =>
    obtain ⟨a, b⟩ := e
    by_cases h : a = k
    · subst h; simp [mapSet]
    · have h' : ¬ k = a := fun e => h e.symm
      by_cases hm : k ∈ m.map Prod.fst
      · simp only [mapSet, h, if_false, List.map_cons, ih, if_pos hm, List.mem_cons, hm, or_true,
          if_true]
      · simp only [mapSet, h, if_false, List.map_cons, ih, if_neg hm, List.mem_cons, hm, or_false,
          h', List.cons_append]

theorem mapSet_nodup {K V : Type} [DecidableEq K] (m : List (K × V)) (k : K) (v : V)
    (h : (m.map Prod.fst).Nodup) : ((mapSet m k v).map Prod.fst).Nodup := by
  rw [mapSet_keys]
  split
  · exact h
  · rename_i hk
    exact List.Nodup.append h (List.nodup_singleton k) (by simpa using hk)

theorem mapGet_of_mem {K V : Type} [DecidableEq K] (m : List (K × V)) (k : K) (v : V)
    (hnd : (m.map Prod.fst).Nodup) (h : (k, v) ∈ m) : mapGet m k = some v := by
  induction m with
  | nil => cases h
  | cons e m ih =>
    obtain ⟨a, b⟩ := e
    rw [List.map_cons, List.nodup_cons] at hnd
    rcases List.mem_cons.1 h with h | h
    · cases h; simp [mapGet]
    · have : a ≠ k := by
        rintro rfl
        exact hnd.1 (List.mem_map.2 ⟨(a, v), h, rfl⟩)
      simp [mapGet, this, ih hnd.2 h]

theorem mem_of_mapGet {K V : Type} [DecidableEq K] (m : List (K × V)) (k : K) (v : V)
    (h : mapGet m k = some v) : (k, v) ∈ m := by
  induction m with
  | nil => simp [mapGet] at h
  | cons e m ih =>
    obtain ⟨a, b⟩ := e
    by_cases hk : a = k
    · subst hk
      simp [mapGet] at h
      subst h
      exact List.mem_cons_self _ _
    · simp [mapGet, hk] at h
      exact List.mem_cons_of_mem _ (ih h)

/-! ### The loop over all interfaces -/

theorem interfacePairs_cons (d : Device) (ds : List Device) :
    interfacePairs (d :: ds) =
      d.Interfaces.map (fun iface => (d, iface)) ++ interfacePairs ds := by
  simp [interfacePairs, List.flatMap]

theorem collect_foldl_pairs (devices : List Device) (t : AddrTables) :
    devices.foldl (fun t d => d.Interfaces.foldl (collectIface d) t) t =
      (interfacePairs devices).foldl (fun t p => collectIface p.1 t p.2) t := by
  induction devices generalizing t with
  | nil => rfl
  | cons d ds ih =>
    rw [List.foldl_cons, ih, interfacePairs_cons, List.foldl_append, List.foldl_map]

theorem collectAddresses_eq (devices : List Device) :
    collectAddresses devices =
      (interfacePairs devices).foldl (fun t p => collectIface p.1 t p.2) ⟨[], [], []⟩ :=
  collect_foldl_pairs devices _

theorem split_nil_length (sep : Char) : (strings.Split [] sep).length = 1 := rfl

theorem collectIface_usedIPs (d : Device) (t : AddrTables) (iface : DeviceInterface)
    (k : Str) :
    mapGet (collectIface d t iface).usedIPs k =
      if claimsAddr k iface = true then some d else mapGet t.usedIPs k := by
  unfold collectIface claimsAddr
  by_cases he : iface.IPAddress = []
  · simp [he, strings.ReplaceAll, strings.Split]
  · by_cases h4 : (strings.Split (strings.ReplaceAll iface.IPAddress ' ') '.').length = 4
    · simp only [he, h4, if_false, if_true, mapGet_mapSet, decide_True, Bool.true_and,
        decide_eq_true_eq]
    · simp [he, h4]

theorem collectIface_subnetCounts (d : Device) (t : AddrTables) (iface : DeviceInterface)
    (p : Str) :
    (mapGet (collectIface d t iface).subnetCounts p).getD 0 =
      (mapGet t.subnetCounts p).getD 0 + (if hasPrefix p iface = true then 1 else 0) := by
  unfold collectIface hasPrefix
  by_cases he : iface.IPAddress = []
  · simp [he, strings.ReplaceAll, strings.Split]
  · by_cases h4 : (strings.Split (strings.ReplaceAll iface.IPAddress ' ') '.').length = 4
    · simp only [he, h4, if_false, if_true, mapGet_mapSet, decide_True, Bool.true_and,
        decide_eq_true_eq]
      split
      · rename_i hp; subst hp; simp
      · simp
    · simp [he, h4]

theorem collectIface_countsOk (d : Device) (t : AddrTables) (iface : DeviceInterface)
    (h : CountsOk t.subnetCounts) : CountsOk (collectIface d t iface).subnetCounts := by
  unfold collectIface
  by_cases he : iface.IPAddress = []
  · simpa [he] using h
  · by_cases h4 : (strings.Split (strings.ReplaceAll iface.IPAddress ' ') '.').length = 4
    · simp only [he, h4, if_false, if_true]
      refine ⟨mapSet_nodup _ _ _ h.1, ?_⟩
      intro e hmem
      obtain ⟨k, n⟩ := e
      have hnd := mapSet_nodup t.subnetCounts
        (strings.Join ((strings.Split (strings.ReplaceAll iface.IPAddress ' ') '.').take 3) '.')
        ((mapGet t.subnetCounts (strings.Join
          ((strings.Split (strings.ReplaceAll iface.IPAddress ' ') '.').take 3) '.')).getD 0 + 1)
        h.1
      have hget := mapGet_of_mem _ k n hnd hmem
      rw [mapGet_mapSet] at hget
      split at hget
      · cases hget; exact Nat.succ_pos _
      · exact h.2 (k, n) (mem_of_mapGet _ _ _ hget)
    · simpa [he, h4] using h

theorem pairs_invariants (ps : List (Device × DeviceInterface)) :
    CountsOk (ps.foldl (fun t p => collectIface p.1 t p.2) ⟨[], [], []⟩).subnetCounts ∧
    (∀ p, (mapGet (ps.foldl (fun t p => collectIface p.1 t p.2) ⟨[], [], []⟩).subnetCounts
        p).getD 0 = (ps.filter (fun q => hasPrefix p q.2)).length) ∧
    (∀ k, mapGet (ps.foldl (fun t p => collectIface p.1 t p.2) ⟨[], [], []⟩).usedIPs k =
        ((ps.filter (fun q => claimsAddr k q.2)).map (fun q => q.1)).getLast?) := by
  induction ps using List.reverseRecOn with
  | nil =>
    refine ⟨⟨by simp, by simp⟩, ?_, ?_⟩
    · intro p; simp [mapGet]
    · intro k; simp [mapGet]
  | append_singleton ps q ih =>
    obtain ⟨d, iface⟩ := q
    simp only [List.foldl_append, List.foldl_cons, List.foldl_nil]
    refine ⟨collectIface_countsOk _ _ _ ih.1, ?_, ?_⟩
    · intro p
      rw [collectIface_subnetCounts, ih.2.1 p, List.filter_append]
      by_cases hp : hasPrefix p iface = true <;> simp [hp]
    · intro k
      rw [collectIface_usedIPs, ih.2.2 k, List.filter_append]
      by_cases hk : claimsAddr k iface = true <;> simp [hk]

theorem usedIPs_get (devices : List Device) (k : Str) :
    mapGet (collectAddresses devices).usedIPs k = (holders devices k).getLast? := by
  rw [collectAddresses_eq]
  exact (pairs_invariants (interfacePairs devices)).2.2 k

theorem subnetCounts_get (devices : List Device) (p : Str) :
    (mapGet (collectAddresses devices).subnetCounts p).getD 0 = prefixCount devices p := by
  rw [collectAddresses_eq]
  exact (pairs_invariants (interfacePairs devices)).2.1 p

theorem subnetCounts_ok (devices : List Device) :
    CountsOk (collectAddresses devices).subnetCounts := by
  rw [collectAddresses_eq]
  exact (pairs_invariants (interfacePairs devices)).1

theorem subnetCounts_mem (devices : List Device) (p : Str) (n : Nat)
    (h : (p, n) ∈ (collectAddresses devices).subnetCounts) :
    n = prefixCount devices p ∧ 0 < n := by
  have hok := subnetCounts_ok devices
  have hget := mapGet_of_mem _ p n hok.1 h
  have := subnetCounts_get devices p
  rw [hget] at this
  exact ⟨this, hok.2 _ h⟩

theorem subnetCounts_mem_of_pos (devices : List Device) (p : Str)
    (h : 0 < prefixCount devices p) :
    (p, prefixCount devices p) ∈ (collectAddresses devices).subnetCounts := by
  have := subnetCounts_get devices p
  cases hg : mapGet (collectAddresses devices).subnetCounts p with
  | none => rw [hg] at this; simp at this; omega
  | some n =>
    rw [hg] at this
    simp at this
    subst this
    exact mem_of_mapGet _ _ _ hg

theorem mem_interfacePairs (devices : List Device) (d : Device) (iface : DeviceInterface) :
    (d, iface) ∈ interfacePairs devices ↔ d ∈ devices ∧ iface ∈ d.Interfaces := by
  simp only [interfacePairs, List.mem_flatMap, List.mem_map, Prod.mk.injEq]
  constructor
  · rintro ⟨d', hd', i', hi', rfl, rfl⟩
    exact ⟨hd', hi'⟩
  · rintro ⟨hd, hi⟩
    exact ⟨d, hd, iface, hi, rfl, rfl⟩

theorem holders_eq_nil_iff (devices : List Device) (addr : Str) :
    holders devices addr = [] ↔
      ∀ d ∈ devices, ∀ iface ∈ d.Interfaces, claimsAddr addr iface = false := by
  simp only [holders, List.map_eq_nil_iff, List.filter_eq_nil_iff, Bool.not_eq_true]
  constructor
  · intro h d hd iface hi
    exact h (d, iface) ((mem_interfacePairs _ _ _).2 ⟨hd, hi⟩)
  · rintro h ⟨d, iface⟩ hmem
    exact h d ((mem_interfacePairs _ _ _).1 hmem).1 iface ((mem_interfacePairs _ _ _).1 hmem).2

/-- C2: for `N` in 1..254 and the inferred subnet `s`, slot `N` of the IP map is `Free` with
`DeviceID` 0 and empty `Hostname` when no interface has a normalized address of four
components equal to `s.N`; otherwise it carries the `ID` and `Hostname` of the last device
met (devices in list order, interfaces in order) that has such an interface, with status
`Reserved` if that device's status is `Reserved` and `Used` otherwise.  The slot exists
whatever duplicates the list holds. -/
theorem C2_slot_follows_last_holder (rt : Runtime) (sortParam orderParam : Str)
    (devices : List Device) (racks : List Rack) (N : Nat) (h1 : 1 ≤ N) (h2 : N ≤ 254) :
    (holders devices
        (sprintfAddr (dashboardData rt sortParam orderParam devices racks).Subnet N) = [] ↔
      ∀ d ∈ devices, ∀ iface ∈ d.Interfaces,
        claimsAddr (sprintfAddr (dashboardData rt sortParam orderParam devices racks).Subnet N)
          iface = false) ∧
    ∃ slot,
      (dashboardData rt sortParam orderParam devices racks).IPMap.get? (N - 1) = some slot ∧
      match (holders devices
          (sprintfAddr (dashboardData rt sortParam orderParam devices racks).Subnet N)).getLast?
      with
      | none => slot.Status = "Free".toList ∧ slot.DeviceID = 0 ∧ slot.Hostname = []
      | some d =>
        slot.DeviceID = d.ID ∧ slot.Hostname = d.Hostname ∧
          slot.Status =
            if d.Status = "Reserved".toList then "Reserved".toList else "Used".toList := by
  refine ⟨holders_eq_nil_iff _ _, _, dashboardData_slot rt sortParam orderParam devices racks N h1 h2, ?_⟩
  have hget := usedIPs_get devices
    (sprintfAddr (dashboardData rt sortParam orderParam devices racks).Subnet N)
  unfold ipSlot
  dsimp only
  rw [hget]
  cases (holders devices
    (sprintfAddr (dashboardData rt sortParam orderParam devices racks).Subnet N)).getLast? with
  | none => exact ⟨rfl, rfl, rfl⟩
  | some d => exact ⟨rfl, rfl, rfl⟩

theorem interfacePairs_append (xs ys : List Device) :
    interfacePairs (xs ++ ys) = interfacePairs xs ++ interfacePairs ys := by
  simp [interfacePairs, List.flatMap]

theorem getLast?_of_all_eq {α : Type} (l : List α) (a : α) (hne : l ≠ [])
    (h : ∀ x ∈ l, x = a) : l.getLast? = some a := by
  rw [List.getLast?_eq_getLast l hne]
  exact congrArg some (h _ (List.getLast_mem hne))

theorem holders_last (pre post : List Device) (d : Device) (iface : DeviceInterface)
    (addr : Str) (hi : iface ∈ d.Interfaces) (hc : claimsAddr addr iface = true)
    (hpost : ∀ d' ∈ post, ∀ i' ∈ d'.Interfaces, claimsAddr addr i' = false) :
    (holders (pre ++ d :: post) addr).getLast? = some d := by
  have hnil : holders post addr = [] := (holders_eq_nil_iff post addr).2 hpost
  have hsplit : holders (pre ++ d :: post) addr =
      holders pre addr ++
        (((d.Interfaces.map (fun iface => (d, iface))).filter
          (fun p => claimsAddr addr p.2)).map (fun p => p.1)) ++ holders post addr := by
    simp [holders, interfacePairs_append, interfacePairs_cons, List.filter_append]
  rw [hsplit, hnil, List.append_nil, List.getLast?_append]
  have hmid : (((d.Interfaces.map (fun iface => (d, iface))).filter
      (fun p => claimsAddr addr p.2)).map (fun p => p.1)).getLast? = some d := by
    apply getLast?_of_all_eq
    · intro hnil'
      have hmem : d ∈ ((d.Interfaces.map (fun iface => (d, iface))).filter
          (fun p => claimsAddr addr p.2)).map (fun p => p.1) := by
        refine List.mem_map.2 ⟨(d, iface), List.mem_filter.2 ⟨?_, hc⟩, rfl⟩
        exact List.mem_map.2 ⟨iface, hi, rfl⟩
      rw [hnil'] at hmem
      cases hmem
    · intro x hx
      obtain ⟨p, hp, rfl⟩ := List.mem_map.1 hx
      obtain ⟨i', _, rfl⟩ := List.mem_map.1 (List.mem_filter.1 hp).1
      rfl
  rw [hmid]
  rfl

theorem replaceAll_of_not_mem (s : Str) (c : Char) (h : c ∉ s) :
    strings.ReplaceAll s c = s := by
  unfold strings.ReplaceAll
  rw [List.filter_eq_self]
  intro a ha
  have : a ≠ c := fun e => h (e ▸ ha)
  simpa using this

/-- C3, as the code has it: if device `d` has an interface whose address is exactly `s.N`
(`s` the inferred subnet, `N` in 1..254), that address has exactly four dot-separated
components and no space, and no device after `d` in the list has an interface whose
normalized address is `s.N`, then slot `N` is `Reserved` when the status of `d` is
`Reserved` and `Used` when it is anything else. -/
theorem C3_status_of_last_exact_holder (rt : Runtime) (sortParam orderParam : Str)
    (pre post : List Device) (d : Device) (iface : DeviceInterface) (racks : List Rack)
    (N : Nat) (h1 : 1 ≤ N) (h2 : N ≤ 254) (hi : iface ∈ d.Interfaces)
    (haddr : iface.IPAddress =
      sprintfAddr (dashboardData rt sortParam orderParam (pre ++ d :: post) racks).Subnet N)
    (h4 : (strings.Split
      (sprintfAddr (dashboardData rt sortParam orderParam (pre ++ d :: post) racks).Subnet N)
      '.').length = 4)
    (hsp : ' ' ∉
      sprintfAddr (dashboardData rt sortParam orderParam (pre ++ d :: post) racks).Subnet N)
    (hlast : ∀ d' ∈ post, ∀ i' ∈ d'.Interfaces,
      strings.ReplaceAll i'.IPAddress ' ' ≠
        sprintfAddr (dashboardData rt sortParam orderParam (pre ++ d :: post) racks).Subnet N) :
    ∃ slot,
      (dashboardData rt sortParam orderParam (pre ++ d :: post) racks).IPMap.get? (N - 1) =
        some slot ∧
      slot.Status =
        if d.Status = "Reserved".toList then "Reserved".toList else "Used".toList := by
  refine ⟨_, dashboardData_slot rt sortParam orderParam _ racks N h1 h2, ?_⟩
  have hc : claimsAddr
      (sprintfAddr (dashboardData rt sortParam orderParam (pre ++ d :: post) racks).Subnet N)
      iface = true := by
    unfold claimsAddr
    rw [haddr, replaceAll_of_not_mem _ _ hsp]
    simp [h4]
  have hpost : ∀ d' ∈ post, ∀ i' ∈ d'.Interfaces, claimsAddr
      (sprintfAddr (dashboardData rt sortParam orderParam (pre ++ d :: post) racks).Subnet N)
      i' = false := by
    intro d' hd' i' hi'
    unfold claimsAddr
    simp [hlast d' hd' i' hi']
  have hget := usedIPs_get (pre ++ d :: post)
    (sprintfAddr (dashboardData rt sortParam orderParam (pre ++ d :: post) racks).Subnet N)
  rw [holders_last pre post d iface _ hi hc hpost] at hget
  unfold ipSlot
  dsimp only
  rw [hget]

/-- C3 as stated fails: with two devices recorded at `10.0.0.5`, the first `Reserved` and
the second `Online`, the first device has an interface whose address is exactly `s.5`, yet
slot 5 is `Used`. -/
theorem C3_counterexample_duplicate_address :
    ¬ (∀ d ∈ duplicateDevices, ∀ iface ∈ d.Interfaces,
        iface.IPAddress =
          sprintfAddr (dashboardData plainRuntime [] [] duplicateDevices []).Subnet 5 →
        ∃ slot,
          (dashboardData plainRuntime [] [] duplicateDevices []).IPMap.get? (5 - 1) =
            some slot ∧
          slot.Status =
            if d.Status = "Reserved".toList then "Reserved".toList else "Used".toList) := by
  intro h
  obtain ⟨slot, hs, hst⟩ := h (sampleDevice 1 "Reserved" ["10.0.0.5"]) (by decide)
    { IPAddress := "10.0.0.5".toList } (by decide) (by decide)
  rw [dashboardData_slot _ _ _ _ _ 5 (by decide) (by decide)] at hs
  cases hs
  revert hst
  decide

/-- The amended C3 at work: in `[Reserved 10.0.0.5, Online 10.0.0.5, Reserved 10.0.0.9]` the
last device is the only holder of `10.0.0.9` and slot 9 is `Reserved`. -/
theorem C3_status_of_last_exact_holder_witness :
    ∃ slot,
      (dashboardData plainRuntime [] []
        (duplicateDevices ++ sampleDevice 3 "Reserved" ["10.0.0.9"] :: []) []).IPMap.get?
          (9 - 1) = some slot ∧
      slot.Status = "Reserved".toList :=
  C3_status_of_last_exact_holder plainRuntime [] [] duplicateDevices []
    (sampleDevice 3 "Reserved" ["10.0.0.9"]) { IPAddress := "10.0.0.9".toList } [] 9
    (by decide) (by decide) (by decide) (by decide) (by decide) (by decide)
    (by intro d' hd'; cases hd')

/-- C1 at slot 5 of the map of `duplicateDevices`: the entry has octet 5 and address
`10.0.0.5`. -/
theorem C1_ipmap_has_254_ordered_slots_witness :
    ∃ e, (dashboardData plainRuntime [] [] duplicateDevices []).IPMap.get? (5 - 1) = some e ∧
      e.Octet = 5 ∧ e.IP = "10.0.0.5".toList :=
  (C1_ipmap_has_254_ordered_slots plainRuntime [] [] duplicateDevices []).2.1 5
    (by decide) (by decide)

/-- C2 at slot 5 of the map of `duplicateDevices`: the slot carries the second device, the
last one recorded at `10.0.0.5`, and is `Used`. -/
theorem C2_slot_follows_last_holder_witness :
    ∃ slot,
      (dashboardData plainRuntime [] [] duplicateDevices []).IPMap.get? (5 - 1) = some slot ∧
      slot.DeviceID = 2 ∧ slot.Hostname = [] ∧ slot.Status = "Used".toList :=
  (C2_slot_follows_last_holder plainRuntime [] [] duplicateDevices [] 5
    (by decide) (by decide)).2

set_option maxRecDepth 100000 in
/-- C4 on `duplicateDevices`: one slot is taken and the usage is 0 percent. -/
theorem C4_dashboard_aggregates_witness :
    (dashboardData plainRuntime [] [] duplicateDevices []).UsedIPs = 1 ∧
    (dashboardData plainRuntime [] [] duplicateDevices []).UsagePercent = 0 :=
  ⟨by decide,
    (C4_dashboard_aggregates plainRuntime [] [] duplicateDevices []).2.2.2.2.2.2.2.2.1
      (by decide)⟩

/-! ### The selection loop -/

theorem foldl_selectStep (l : List (Str × Nat)) (st : Nat × Str) :
    st.1 ≤ (l.foldl selectStep st).1 ∧
    (∀ e ∈ l, e.2 ≤ (l.foldl selectStep st).1) ∧
    (l.foldl selectStep st = st ∨
      (st.1 < (l.foldl selectStep st).1 ∧
        ((l.foldl selectStep st).2, (l.foldl selectStep st).1) ∈ l)) := by
  induction l generalizing st with
  | nil => simp
  | cons e l ih =>
    rw [List.foldl_cons]
    obtain ⟨h1, h2, h3⟩ := ih (selectStep st e)
    have hstep : st.1 ≤ (selectStep st e).1 ∧ e.2 ≤ (selectStep st e).1 ∧
        (selectStep st e = st ∨ (st.1 < e.2 ∧ selectStep st e = (e.2, e.1))) := by
      unfold selectStep
      by_cases h : e.2 > st.1
      · rw [if_pos h]
        exact ⟨Nat.le_of_lt h, Nat.le_refl _, Or.inr ⟨h, rfl⟩⟩
      · rw [if_neg h]
        exact ⟨Nat.le_refl _, Nat.le_of_not_lt h, Or.inl rfl⟩
    refine ⟨le_trans hstep.1 h1, ?_, ?_⟩
    · intro e' he'
      rcases List.mem_cons.1 he' with rfl | hm
      · exact le_trans hstep.2.1 h1
      · exact h2 e' hm
    · rcases h3 with h3 | ⟨h3, h3'⟩
      · rcases hstep.2.2 with hs | ⟨hs, hs'⟩
        · left; rw [h3, hs]
        · right
          rw [h3, hs']
          exact ⟨hs, List.mem_cons_self _ _⟩
      · right
        exact ⟨lt_of_le_of_lt hstep.1 h3, List.mem_cons_of_mem _ h3'⟩

theorem foldl_selectStep_default (l : List (Str × Nat)) (st : Nat × Str)
    (h : ∀ e ∈ l, e.2 ≤ st.1) : l.foldl selectStep st = st := by
  rcases (foldl_selectStep l st).2.2 with h' | ⟨hlt, hmem⟩
  · exact h'
  · exact absurd (h _ hmem) (by simpa using hlt)

theorem scanCountIface_eq (d : Device) (t : AddrTables) (iface : DeviceInterface) :
    (collectIface d t iface).subnetCounts = scanCountIface t.subnetCounts iface := by
  unfold collectIface scanCountIface
  by_cases he : iface.IPAddress = []
  · simp [he, strings.ReplaceAll, strings.Split]
  · by_cases h4 : (strings.Split (strings.ReplaceAll iface.IPAddress ' ') '.').length = 4
    · simp [he, h4]
    · simp [he, h4]

theorem scan_inner_eq (d : Device) (ifaces : List DeviceInterface) (t : AddrTables) :
    (ifaces.foldl (collectIface d) t).subnetCounts =
      ifaces.foldl scanCountIface t.subnetCounts := by
  induction ifaces generalizing t with
  | nil => rfl
  | cons i is ih => rw [List.foldl_cons, List.foldl_cons, ih, scanCountIface_eq]

theorem scan_outer_eq (devices : List Device) (t : AddrTables) :
    (devices.foldl (fun t d => d.Interfaces.foldl (collectIface d) t) t).subnetCounts =
      devices.foldl (fun m d => d.Interfaces.foldl scanCountIface m) t.subnetCounts := by
  induction devices generalizing t with
  | nil => rfl
  | cons d ds ih => rw [List.foldl_cons, List.foldl_cons, ih, scan_inner_eq]

theorem scanSubnetCounts_eq (devices : List Device) :
    scanSubnetCounts devices = (collectAddresses devices).subnetCounts :=
  (scan_outer_eq devices ⟨[], [], []⟩).symm

theorem dashboardData_Subnet (rt : Runtime) (sortParam orderParam : Str)
    (devices : List Device) (racks : List Rack) :
    (dashboardData rt sortParam orderParam devices racks).Subnet =
      selectSubnet rt (collectAddresses devices).subnetCounts := rfl

theorem scanTargetSubnet_eq (rt : Runtime) (devices : List Device) :
    scanTargetSubnet rt devices = selectSubnet rt (collectAddresses devices).subnetCounts := by
  rw [scanTargetSubnet, scanSubnetCounts_eq]

theorem selectSubnet_default (rt : Runtime) (hfair : rt.Fair) (devices : List Device)
    (h : ∀ p, prefixCount devices p < 2) :
    selectSubnet rt (collectAddresses devices).subnetCounts = defaultSubnet rt := by
  unfold selectSubnet
  rw [foldl_selectStep_default]
  intro e he
  have hmem : (e.1, e.2) ∈ (collectAddresses devices).subnetCounts := (hfair _).mem_iff.1 he
  have := (subnetCounts_mem devices e.1 e.2 hmem).1
  have := h e.1
  show e.2 ≤ 1
  omega

theorem selectSubnet_max (rt : Runtime) (hfair : rt.Fair) (devices : List Device)
    (h : ∃ p, 2 ≤ prefixCount devices p) :
    2 ≤ prefixCount devices (selectSubnet rt (collectAddresses devices).subnetCounts) ∧
    ∀ q, prefixCount devices q ≤
      prefixCount devices (selectSubnet rt (collectAddresses devices).subnetCounts) := by
  obtain ⟨p, hp⟩ := h
  obtain ⟨-, hall, hres⟩ := foldl_selectStep
    (rt.rangeOrder (collectAddresses devices).subnetCounts) (1, defaultSubnet rt)
  have hp_mem : (p, prefixCount devices p) ∈
      rt.rangeOrder (collectAddresses devices).subnetCounts :=
    (hfair _).mem_iff.2 (subnetCounts_mem_of_pos devices p (by omega))
  have hge := hall _ hp_mem
  rcases hres with hres | ⟨hlt, hmem⟩
  · rw [hres] at hge
    simp at hge
    omega
  · have hcnt := (subnetCounts_mem devices _ _ ((hfair _).mem_iff.1 hmem)).1
    unfold selectSubnet
    rw [← hcnt]
    refine ⟨by simp at hlt; omega, ?_⟩
    intro q
    by_cases hq : prefixCount devices q = 0
    · omega
    · exact hall _ ((hfair _).mem_iff.2 (subnetCounts_mem_of_pos devices q (by omega)))

theorem plainRuntime_fair : plainRuntime.Fair := fun m => List.Perm.refl m

theorem reversingRuntime_fair : reversingRuntime.Fair := fun m => List.reverse_perm m

theorem prefixCount_le_valid (devices : List Device) (p : Str) :
    prefixCount devices p ≤
      ((interfacePairs devices).filter (fun q =>
        decide ((strings.Split (strings.ReplaceAll q.2.IPAddress ' ') '.').length = 4))).length := by
  unfold prefixCount
  apply List.Sublist.length_le
  apply List.monotone_filter_right
  intro q hq
  unfold hasPrefix at hq
  simp only [Bool.and_eq_true] at hq
  exact hq.1

theorem prefixCount_malformed (devices : List Device) (p : Str)
    (h : ∀ d ∈ devices, ∀ iface ∈ d.Interfaces,
      (strings.Split (strings.ReplaceAll iface.IPAddress ' ') '.').length ≠ 4) :
    prefixCount devices p = 0 := by
  have hle := prefixCount_le_valid devices p
  have : (interfacePairs devices).filter (fun q =>
      decide ((strings.Split (strings.ReplaceAll q.2.IPAddress ' ') '.').length = 4)) = [] := by
    rw [List.filter_eq_nil_iff]
    rintro ⟨d, iface⟩ hmem
    have := (mem_interfacePairs _ _ _).1 hmem
    simpa using h d this.1 iface this.2
  rw [this] at hle
  simpa using hle

/-- C5: when no /24 prefix is shared by two or more valid (four-component) interface
addresses, the subnet inferred by `HomeHandler` and the one inferred by
`ScanSubnetHandler` are the configured default, whatever the order in which the counter
map is visited; the default is `IP_RANGE_START`, or `192.168.1` when that is unset or
empty.  A device list whose addresses are all malformed, the empty list included, is such
a list. -/
theorem C5_default_subnet_without_shared_prefix (rt : Runtime) (hfair : rt.Fair)
    (sortParam orderParam : Str) (devices : List Device) (racks : List Rack)
    (h : ∀ p, prefixCount devices p < 2) :
    (dashboardData rt sortParam orderParam devices racks).Subnet = defaultSubnet rt ∧
    scanTargetSubnet rt devices = defaultSubnet rt ∧
    defaultSubnet rt =
      (if rt.IP_RANGE_START = [] then "192.168.1".toList else rt.IP_RANGE_START) ∧
    ((∀ d ∈ devices, ∀ iface ∈ d.Interfaces,
        (strings.Split (strings.ReplaceAll iface.IPAddress ' ') '.').length ≠ 4) →
      ∀ p, prefixCount devices p = 0) ∧
    (∀ p, prefixCount [] p = 0) := by
  refine ⟨?_, ?_, rfl, ?_, ?_⟩
  · rw [dashboardData_Subnet]
    exact selectSubnet_default rt hfair devices h
  · rw [scanTargetSubnet_eq]
    exact selectSubnet_default rt hfair devices h
  · intro hm p
    exact prefixCount_malformed devices p hm
  · intro p
    rfl

/-- C5 on a device with one stray address, one malformed and one empty address: both
handlers keep `192.168.1`. -/
theorem C5_default_subnet_without_shared_prefix_witness :
    (dashboardData plainRuntime [] [] strayDevices []).Subnet = "192.168.1".toList ∧
    scanTargetSubnet plainRuntime strayDevices = "192.168.1".toList :=
  have h := C5_default_subnet_without_shared_prefix plainRuntime plainRuntime_fair [] []
    strayDevices []
    (fun p => lt_of_le_of_lt (prefixCount_le_valid strayDevices p) (by decide))
  ⟨h.1, h.2.1⟩

/-- C6: when some /24 prefix is shared by two or more valid interface addresses, the
inferred subnet is a prefix whose counter is maximal among all prefixes (and at least 2),
in every order in which the counter map may be visited.  The counter of `p` held by the map
is the number of interfaces whose normalized address has exactly four dot-separated
components, the first three joined by dots being `p`; an address with another number of
components counts for no prefix. -/
theorem C6_inferred_subnet_has_maximal_counter (rt : Runtime) (hfair : rt.Fair)
    (sortParam orderParam : Str) (devices : List Device) (racks : List Rack)
    (h : ∃ p, 2 ≤ prefixCount devices p) :
    (∀ q, prefixCount devices q ≤
      prefixCount devices (dashboardData rt sortParam orderParam devices racks).Subnet) ∧
    2 ≤ prefixCount devices (dashboardData rt sortParam orderParam devices racks).Subnet ∧
    (∀ p, (mapGet (collectAddresses devices).subnetCounts p).getD 0 = prefixCount devices p) ∧
    (∀ p iface, (strings.Split (strings.ReplaceAll iface.IPAddress ' ') '.').length ≠ 4 →
      hasPrefix p iface = false) := by
  rw [dashboardData_Subnet]
  refine ⟨(selectSubnet_max rt hfair devices h).2, (selectSubnet_max rt hfair devices h).1,
    subnetCounts_get devices, ?_⟩
  intro p iface hne
  simp [hasPrefix, hne]

/-- C6 on `mixedDevices`, the counter map visited backwards: the counter of `172.16.0` is
not above that of the inferred subnet, which is `10.0.0`. -/
theorem C6_inferred_subnet_has_maximal_counter_witness :
    prefixCount mixedDevices "172.16.0".toList ≤
      prefixCount mixedDevices (dashboardData reversingRuntime [] [] mixedDevices []).Subnet ∧
    (dashboardData reversingRuntime [] [] mixedDevices []).Subnet = "10.0.0".toList :=
  ⟨(C6_inferred_subnet_has_maximal_counter reversingRuntime reversingRuntime_fair [] []
      mixedDevices [] ⟨"10.0.0".toList, by decide⟩).1 "172.16.0".toList,
    by decide⟩

/-! ### `strings.Split` and `strings.Join` -/

theorem split_ne_nil (s : Str) (sep : Char) : strings.Split s sep ≠ [] := by
  induction s with
  | nil => simp [strings.Split]
  | cons c cs ih =>
    unfold strings.Split
    split
    · simp
    · split <;> simp

theorem split_cons_of_ne (c : Char) (cs : Str) (sep : Char) (h : c ≠ sep) :
    ∃ p ps, strings.Split cs sep = p :: ps ∧ strings.Split (c :: cs) sep = (c :: p) :: ps := by
  cases hs : strings.Split cs sep with
  | nil => exact absurd hs (split_ne_nil cs sep)
  | cons p ps =>
    refine ⟨p, ps, rfl, ?_⟩
    rw [strings.Split, if_neg h, hs]

theorem split_cons_sep (cs : Str) (sep : Char) :
    strings.Split (sep :: cs) sep = [] :: strings.Split cs sep := by
  rw [strings.Split, if_pos rfl]

theorem split_no_sep (s : Str) (sep : Char) : ∀ p ∈ strings.Split s sep, sep ∉ p := by
  induction s with
  | nil => simp [strings.Split]
  | cons c cs ih =>
    by_cases h : c = sep
    · subst h
      rw [split_cons_sep]
      intro p hp
      rcases List.mem_cons.1 hp with rfl | hp
      · simp
      · exact ih p hp
    · obtain ⟨p, ps, h1, h2⟩ := split_cons_of_ne c cs sep h
      rw [h2]
      rw [h1] at ih
      intro q hq
      rcases List.mem_cons.1 hq with rfl | hq
      · intro hmem
        rcases List.mem_cons.1 hmem with e | hmem
        · exact h e.symm
        · exact ih p (List.mem_cons_self _ _) hmem
      · exact ih q (List.mem_cons_of_mem _ hq)

theorem split_mem_chars (s : Str) (sep : Char) :
    ∀ p ∈ strings.Split s sep, ∀ c ∈ p, c ∈ s := by
  induction s with
  | nil => simp [strings.Split]
  | cons c cs ih =>
    by_cases h : c = sep
    · subst h
      rw [split_cons_sep]
      intro p hp x hx
      rcases List.mem_cons.1 hp with rfl | hp
      · cases hx
      · exact List.mem_cons_of_mem _ (ih p hp x hx)
    · obtain ⟨p, ps, h1, h2⟩ := split_cons_of_ne c cs sep h
      rw [h2]
      rw [h1] at ih
      intro q hq x hx
      rcases List.mem_cons.1 hq with rfl | hq
      · rcases List.mem_cons.1 hx with rfl | hx
        · exact List.mem_cons_self _ _
        · exact List.mem_cons_of_mem _ (ih p (List.mem_cons_self _ _) x hx)
      · exact List.mem_cons_of_mem _ (ih q (List.mem_cons_of_mem _ hq) x hx)

theorem split_of_no_sep (p : Str) (sep : Char) (h : sep ∉ p) : strings.Split p sep = [p] := by
  induction p with
  | nil => rfl
  | cons c cs ih =>
    have hc : c ≠ sep := fun e => h (e ▸ List.mem_cons_self _ _)
    have hcs : sep ∉ cs := fun hm => h (List.mem_cons_of_mem _ hm)
    rw [strings.Split, if_neg hc, ih hcs]

theorem split_append_sep (p rest : Str) (sep : Char) (h : sep ∉ p) :
    strings.Split (p ++ sep :: rest) sep = p :: strings.Split rest sep := by
  induction p with
  | nil => exact split_cons_sep rest sep
  | cons c cs ih =>
    have hc : c ≠ sep := fun e => h (e ▸ List.mem_cons_self _ _)
    have hcs : sep ∉ cs := fun hm => h (List.mem_cons_of_mem _ hm)
    rw [List.cons_append, strings.Split, if_neg hc, ih hcs]

theorem split_join (parts : List Str) (sep : Char) (hne : parts ≠ [])
    (h : ∀ p ∈ parts, sep ∉ p) : strings.Split (strings.Join parts sep) sep = parts := by
  induction parts with
  | nil => exact absurd rfl hne
  | cons p ps ih =>
    cases ps with
    | nil =>
      rw [strings.Join]
      exact split_of_no_sep p sep (h p (List.mem_cons_self _ _))
    | cons q rest =>
      rw [strings.Join, split_append_sep _ _ _ (h p (List.mem_cons_self _ _)),
        ih (by simp) (fun x hx => h x (List.mem_cons_of_mem _ hx))]

theorem join_mem_chars (parts : List Str) (sep : Char) :
    ∀ c ∈ strings.Join parts sep, c = sep ∨ ∃ p ∈ parts, c ∈ p := by
  induction parts with
  | nil => simp [strings.Join]
  | cons p ps ih =>
    cases ps with
    | nil =>
      intro c hc
      rw [strings.Join] at hc
      exact Or.inr ⟨p, List.mem_cons_self _ _, hc⟩
    | cons q rest =>
      intro c hc
      rw [strings.Join] at hc
      rcases List.mem_append.1 hc with hc | hc
      · exact Or.inr ⟨p, List.mem_cons_self _ _, hc⟩
      · rcases List.mem_cons.1 hc with rfl | hc
        · exact Or.inl rfl
        · rcases ih c hc with h | ⟨x, hx, hcx⟩
          · exact Or.inl h
          · exact Or.inr ⟨x, List.mem_cons_of_mem _ hx, hcx⟩

theorem prefix_shape (p : Str) (iface : DeviceInterface) (h : hasPrefix p iface = true) :
    (strings.Split p '.').length = 3 ∧ ' ' ∉ p := by
  unfold hasPrefix at h
  simp only [Bool.and_eq_true, decide_eq_true_eq] at h
  obtain ⟨h4, hp⟩ := h
  have hnosep : ∀ x ∈ (strings.Split (strings.ReplaceAll iface.IPAddress ' ') '.').take 3,
      '.' ∉ x := fun x hx => split_no_sep _ _ x (List.mem_of_mem_take hx)
  have hlen : ((strings.Split (strings.ReplaceAll iface.IPAddress ' ') '.').take 3).length = 3 := by
    rw [List.length_take, h4]; rfl
  have hne : (strings.Split (strings.ReplaceAll iface.IPAddress ' ') '.').take 3 ≠ [] := by
    intro hnil
    rw [hnil] at hlen
    cases hlen
  subst hp
  refine ⟨by rw [split_join _ _ hne hnosep, hlen], ?_⟩
  intro hsp
  rcases join_mem_chars _ _ _ hsp with h | ⟨x, hx, hcx⟩
  · exact absurd h (by decide)
  · have := split_mem_chars _ _ x (List.mem_of_mem_take hx) _ hcx
    simp [strings.ReplaceAll] at this

theorem prefixCount_pos_iff (devices : List Device) (p : Str) :
    0 < prefixCount devices p ↔
      ∃ d ∈ devices, ∃ iface ∈ d.Interfaces, hasPrefix p iface = true := by
  unfold prefixCount
  rw [List.length_pos, ne_eq, List.filter_eq_nil_iff]
  constructor
  · intro h
    by_contra hcon
    apply h
    rintro ⟨d, iface⟩ hmem hp
    have := (mem_interfacePairs _ _ _).1 hmem
    exact hcon ⟨d, this.1, iface, this.2, hp⟩
  · rintro ⟨d, hd, iface, hi, hp⟩ hall
    exact hall (d, iface) ((mem_interfacePairs _ _ _).2 ⟨hd, hi⟩) hp

theorem selectSubnet_cases (rt : Runtime) (hfair : rt.Fair) (devices : List Device) :
    selectSubnet rt (collectAddresses devices).subnetCounts = defaultSubnet rt ∨
    2 ≤ prefixCount devices (selectSubnet rt (collectAddresses devices).subnetCounts) := by
  by_cases h : ∃ p, 2 ≤ prefixCount devices p
  · exact Or.inr (selectSubnet_max rt hfair devices h).1
  · left
    apply selectSubnet_default rt hfair
    intro p
    by_contra hp
    exact h ⟨p, by omega⟩

/-- C7, as the code has it: the inferred subnet is either the configured default, taken as
it is, or the prefix of two or more recorded interfaces, and then it has exactly three
dot-separated components and no space; the components need not be numbers.  The built-in
default `192.168.1` consists of three numeric components. -/
theorem C7_subnet_is_default_or_three_components (rt : Runtime) (hfair : rt.Fair)
    (sortParam orderParam : Str) (devices : List Device) (racks : List Rack) :
    ((dashboardData rt sortParam orderParam devices racks).Subnet = defaultSubnet rt ∨
      (2 ≤ prefixCount devices (dashboardData rt sortParam orderParam devices racks).Subnet ∧
        (strings.Split (dashboardData rt sortParam orderParam devices racks).Subnet '.').length
          = 3 ∧
        ' ' ∉ (dashboardData rt sortParam orderParam devices racks).Subnet)) ∧
    (rt.IP_RANGE_START = [] → isThreeNumeric (defaultSubnet rt) = true) := by
  constructor
  · rw [dashboardData_Subnet]
    rcases selectSubnet_cases rt hfair devices with h | h
    · exact Or.inl h
    · right
      obtain ⟨d, _, iface, _, hp⟩ := (prefixCount_pos_iff devices _).1 (lt_of_lt_of_le (by decide : 0 < 2) h)
      exact ⟨h, prefix_shape _ iface hp⟩
  · intro he
    simp only [defaultSubnet, he, if_true]
    decide

/-- C7 as stated fails: two devices at `a.b.c.1` and `a.b.c.2` make the inferred subnet
`a.b.c`, whose components are not numbers; and with `IP_RANGE_START` set to `10.0` and no
device the inferred subnet is `10.0`, which has two components. -/
theorem C7_counterexample_not_numeric :
    (dashboardData plainRuntime [] [] alphaDevices []).Subnet = "a.b.c".toList ∧
    isThreeNumeric (dashboardData plainRuntime [] [] alphaDevices []).Subnet = false ∧
    (dashboardData shortDefaultRuntime [] [] [] []).Subnet = "10.0".toList ∧
    isThreeNumeric (dashboardData shortDefaultRuntime [] [] [] []).Subnet = false := by
  decide

/-- The amended C7 on `mixedDevices`: the inferred subnet has three components. -/
theorem C7_subnet_is_default_or_three_components_witness :
    (dashboardData plainRuntime [] [] mixedDevices []).Subnet = defaultSubnet plainRuntime ∨
      (2 ≤ prefixCount mixedDevices (dashboardData plainRuntime [] [] mixedDevices []).Subnet ∧
        (strings.Split (dashboardData plainRuntime [] [] mixedDevices []).Subnet '.').length
          = 3 ∧
        ' ' ∉ (dashboardData plainRuntime [] [] mixedDevices []).Subnet) :=
  (C7_subnet_is_default_or_three_components plainRuntime plainRuntime_fair [] []
    mixedDevices []).1

/-! ### `compareIPs` -/

theorem bytesCompare_lt_iff (xs ys : List Nat) (hlen : xs.length = ys.length) :
    bytesCompare xs ys < 0 ↔
      ∃ k, k < xs.length ∧ (∀ j, j < k → xs.getD j 0 = ys.getD j 0) ∧
        xs.getD k 0 < ys.getD k 0 := by
  induction xs generalizing ys with
  | nil =>
    cases ys with
    | nil => simp [bytesCompare]
    | cons y ys => cases hlen
  | cons x xs ih =>
    cases ys with
    | nil => cases hlen
    | cons y ys =>
      have hlen' : xs.length = ys.length := by simpa using hlen
      unfold bytesCompare
      by_cases hlt : x < y
      · simp only [hlt, if_true]
        refine ⟨fun _ => ⟨0, by simp, by simp, by simpa using hlt⟩, fun _ => by decide⟩
      · by_cases hgt : x > y
        · simp only [hlt, hgt, if_true, if_false]
          constructor
          · intro h; exact absurd h (by decide)
          · rintro ⟨k, _, hpre, hk⟩
            cases k with
            | zero => simp at hk; omega
            | succ k => have := hpre 0 (by omega); simp at this; omega
        · have hxy : x = y := by omega
          subst hxy
          simp only [lt_self_iff_false, if_false, gt_iff_lt, ih ys hlen']
          constructor
          · rintro ⟨k, hk, hpre, hlt'⟩
            refine ⟨k + 1, by simpa using hk, ?_, by simpa using hlt'⟩
            intro j hj
            cases j with
            | zero => simp
            | succ j => simpa using hpre j (by omega)
          · rintro ⟨k, hk, hpre, hlt'⟩
            cases k with
            | zero => simp at hlt'
            | succ k =>
              refine ⟨k, by simpa using hk, ?_, by simpa using hlt'⟩
              intro j hj
              simpa using hpre (j + 1) (by omega)

theorem To4_mapped (o : List Nat) (h : o.length = 4) : To4 (v4InV6Prefix ++ o) = some o := by
  match o, h with
  | [a, b, c, d], _ => simp [To4, v4InV6Prefix]

theorem split_covers (s : Str) (sep : Char) :
    ∀ c ∈ s, c = sep ∨ ∃ p ∈ strings.Split s sep, c ∈ p := by
  induction s with
  | nil => simp
  | cons x xs ih =>
    intro c hc
    by_cases h : x = sep
    · subst h
      rw [split_cons_sep]
      rcases List.mem_cons.1 hc with rfl | hc
      · exact Or.inl rfl
      · rcases ih c hc with h | ⟨p, hp, hcp⟩
        · exact Or.inl h
        · exact Or.inr ⟨p, List.mem_cons_of_mem _ hp, hcp⟩
    · obtain ⟨p, ps, h1, h2⟩ := split_cons_of_ne x xs sep h
      rw [h2]
      rw [h1] at ih
      rcases List.mem_cons.1 hc with rfl | hc
      · exact Or.inr ⟨c :: p, List.mem_cons_self _ _, List.mem_cons_self _ _⟩
      · rcases ih c hc with h | ⟨q, hq, hcq⟩
        · exact Or.inl h
        · rcases List.mem_cons.1 hq with rfl | hq
          · exact Or.inr ⟨x :: q, List.mem_cons_self _ _, List.mem_cons_of_mem _ hcq⟩
          · exact Or.inr ⟨q, List.mem_cons_of_mem _ hq, hcq⟩

theorem parseIPv4_some (s : Str) (o : List Nat) (h : parseIPv4 s = some o) :
    (strings.Split s '.').length = 4 ∧ (strings.Split s '.').all isOctetField = true ∧
      o = (strings.Split s '.').map decimalValue := by
  unfold parseIPv4 at h
  dsimp only at h
  split at h
  · rename_i hc
    cases h
    exact ⟨hc.1, hc.2, rfl⟩
  · cases h

theorem parseIPv4_length (s : Str) (o : List Nat) (h : parseIPv4 s = some o) :
    o.length = 4 := by
  obtain ⟨h4, -, rfl⟩ := parseIPv4_some s o h
  simpa using h4

theorem digit_not_special (c : Char) (h : (decide ('0' ≤ c) && decide (c ≤ '9')) = true) :
    c ≠ ':' ∧ c ≠ '%' := by
  constructor
  · rintro rfl; revert h; decide
  · rintro rfl; revert h; decide

theorem ParseIP_of_parseIPv4 (parseIPv6 : Str → Option (List Nat)) (s : Str) (o : List Nat)
    (h : parseIPv4 s = some o) : ParseIP parseIPv6 s = some (v4InV6Prefix ++ o) := by
  obtain ⟨h4, hall, -⟩ := parseIPv4_some s o h
  have hdot : '.' ∈ s := by
    by_contra hn
    rw [split_of_no_sep s '.' hn] at h4
    cases h4
  have hchars : ∀ c ∈ s, c = '.' ∨ (c ≠ ':' ∧ c ≠ '%') := by
    intro c hc
    rcases split_covers s '.' c hc with h | ⟨p, hp, hcp⟩
    · exact Or.inl h
    · right
      have hp' := List.all_eq_true.1 hall p hp
      unfold isOctetField at hp'
      simp only [Bool.and_eq_true] at hp'
      have := List.all_eq_true.1 hp'.1.1.2 c hcp
      exact digit_not_special c this
  unfold ParseIP
  cases hf : s.find? (fun c => decide (c = '.') || decide (c = ':') || decide (c = '%')) with
  | none =>
    have := List.find?_eq_none.1 hf '.' hdot
    simp at this
  | some c =>
    have hmem := List.mem_of_find?_eq_some hf
    have hsat := List.find?_some hf
    have hc : c = '.' := by
      rcases hchars c hmem with h | ⟨h1, h2⟩
      · exact h
      · simp [h1, h2] at hsat
        exact hsat
    simp [hc, h]

theorem compareIPs_of_parseIPv4 (parseIPv6 : Str → Option (List Nat)) (a b : Str)
    (oa ob : List Nat) (ha : parseIPv4 a = some oa) (hb : parseIPv4 b = some ob) :
    compareIPs parseIPv6 a b = decide (bytesCompare oa ob < 0) := by
  unfold compareIPs
  rw [ParseIP_of_parseIPv4 parseIPv6 a oa ha, ParseIP_of_parseIPv4 parseIPv6 b ob hb]
  simp only [To4_mapped oa (parseIPv4_length a oa ha), To4_mapped ob (parseIPv4_length b ob hb)]

/-- C8: for two strings that parse as dotted-decimal IPv4 addresses, `compareIPs a b` is
true exactly when the octets of `a` are below those of `b` in the component-by-component
numeric comparison, the first differing octet deciding.  So the sort by address puts
`10.0.0.2`, `10.0.0.10`, `10.0.0.1` in the order `10.0.0.1`, `10.0.0.2`, `10.0.0.10`, not
in the lexicographic one. -/
theorem C8_compareIPs_numeric_on_ipv4 (rt : Runtime) (a b : Str) (oa ob : List Nat)
    (ha : parseIPv4 a = some oa) (hb : parseIPv4 b = some ob) :
    (compareIPs rt.parseIPv6 a b = true ↔
      ∃ k, k < 4 ∧ (∀ j, j < k → oa.getD j 0 = ob.getD j 0) ∧ oa.getD k 0 < ob.getD k 0) ∧
    (sort.Slice unsortedDevices (sortLess rt "ip".toList "asc".toList)).map getIP =
      ["10.0.0.1".toList, "10.0.0.2".toList, "10.0.0.10".toList] ∧
    (dashboardData rt "ip".toList [] unsortedDevices []).UnassignedDevices.map getIP =
      ["10.0.0.1".toList, "10.0.0.2".toList, "10.0.0.10".toList] ∧
    strLess "10.0.0.10".toList "10.0.0.2".toList = true := by
  have hla := parseIPv4_length a oa ha
  have hlb := parseIPv4_length b ob hb
  refine ⟨?_, ?_, ?_, by decide⟩
  · rw [compareIPs_of_parseIPv4 rt.parseIPv6 a b oa ob ha hb, decide_eq_true_eq,
      bytesCompare_lt_iff oa ob (hla.trans hlb.symm), hla]
  · rfl
  · rfl

/-- C8 on `10.0.0.2` and `10.0.0.10`: the first is before the second, the last octets 2 and
10 deciding. -/
theorem C8_compareIPs_numeric_on_ipv4_witness :
    compareIPs plainRuntime.parseIPv6 "10.0.0.2".toList "10.0.0.10".toList = true ↔
      ∃ k, k < 4 ∧ (∀ j, j < k → [10, 0, 0, 2].getD j 0 = [10, 0, 0, 10].getD j 0) ∧
        [10, 0, 0, 2].getD k 0 < [10, 0, 0, 10].getD k 0 :=
  (C8_compareIPs_numeric_on_ipv4 plainRuntime "10.0.0.2".toList "10.0.0.10".toList
    [10, 0, 0, 2] [10, 0, 0, 10] (by decide) (by decide)).1

theorem ParseIP_nil (parseIPv6 : Str → Option (List Nat)) : ParseIP parseIPv6 [] = none := rfl

theorem strLess_iff_lex (a b : Str) :
    strLess a b = true ↔ List.Lex (fun x y : Char => x < y) a b := by
  induction a generalizing b with
  | nil =>
    cases b with
    | nil =>
      simp only [strLess, Bool.false_eq_true, false_iff]
      intro h; cases h
    | cons y ys =>
      simp only [strLess, true_iff]
      exact List.Lex.nil
  | cons x xs ih =>
    cases b with
    | nil =>
      simp only [strLess, Bool.false_eq_true, false_iff]
      intro h; cases h
    | cons y ys =>
      unfold strLess
      by_cases h1 : x < y
      · simp only [h1, if_true, true_iff]
        exact List.Lex.rel h1
      · by_cases h2 : y < x
        · simp only [h1, h2, if_true, if_false, Bool.false_eq_true, false_iff]
          intro h
          cases h with
          | cons _ => exact lt_irrefl _ h2
          | rel h => exact h1 h
        · have hxy : x = y := le_antisymm (not_lt.1 h2) (not_lt.1 h1)
          subst hxy
          simp only [h1, if_false, ih ys]
          constructor
          · intro h; exact List.Lex.cons h
          · intro h
            cases h with
            | cons h => exact h
            | rel h => exact absurd h h1

/-- C9: when at least one of two strings fails to parse as an IP address, `compareIPs` is
the lexicographic string comparison `a < b`; the empty string, which stands for a device
without interface, is such a string. -/
theorem C9_compareIPs_falls_back_to_string_order (rt : Runtime) (a b : Str)
    (h : ParseIP rt.parseIPv6 a = none ∨ ParseIP rt.parseIPv6 b = none) :
    compareIPs rt.parseIPv6 a b = strLess a b ∧
    (strLess a b = true ↔ List.Lex (fun x y : Char => x < y) a b) ∧
    ParseIP rt.parseIPv6 [] = none ∧
    (∀ d : Device, d.Interfaces = [] → getIP d = []) := by
  refine ⟨?_, strLess_iff_lex a b, rfl, ?_⟩
  · unfold compareIPs
    rcases h with h | h
    · rw [h]
    · rw [h]
      cases ParseIP rt.parseIPv6 a <;> rfl
  · intro d hd
    simp [getIP, hd]



/-- C9 on the empty address and `10.0.0.1`: the empty string does not parse, and the
comparison is that of the strings, under which the empty string comes first. -/
theorem C9_compareIPs_falls_back_to_string_order_witness :
    compareIPs plainRuntime.parseIPv6 [] "10.0.0.1".toList = strLess [] "10.0.0.1".toList ∧
    strLess [] "10.0.0.1".toList = true :=
  ⟨(C9_compareIPs_falls_back_to_string_order plainRuntime [] "10.0.0.1".toList
      (Or.inl rfl)).1, rfl⟩

/-- C10 does not hold of the code: without a sort key the comparator handed to `sort.Slice`
is `dev1.ID < dev2.ID`, whatever the `order` parameter, so the devices of a group are put in
ascending identifier order.  Two unassigned devices that the record store returns as 2, 1
come out as 1, 2, and so do two devices of rack 7. -/
theorem C10_no_sort_key_orders_by_id (rt : Runtime) (orderParam : Str) :
    (∀ dev1 dev2 : Device, sortLess rt [] orderParam dev1 dev2 = decide (dev1.ID < dev2.ID)) ∧
    newestFirstDevices.map (fun d => d.ID) = [2, 1] ∧
    (dashboardData rt [] orderParam newestFirstDevices []).UnassignedDevices.map
      (fun d => d.ID) = [1, 2] ∧
    rackedDevices.map (fun d => d.ID) = [2, 1] ∧
    (dashboardData rt [] orderParam rackedDevices [{ ID := 7 }]).RackGroups.map
      (fun g => g.Devices.map (fun d => d.ID)) = [[1, 2]] := by
  refine ⟨fun _ _ => rfl, rfl, rfl, rfl, rfl⟩

/-- C11: for the sort keys `ip` and `hostname` and every pair of devices, the comparator
handed to `sort.Slice` returns the ascending result `less(a, b)` when the `order`
parameter is empty or anything but `desc`, and exactly its negation when it is `desc`.
Both groups of the dashboard are the result of `sort.Slice` with that comparator on the
grouped devices: the flag acts on the comparator, the sequence is never reversed (the
names `b, c, a` come out as `c, b, a` under `desc`, not as the reversed input `a, c, b`). -/
theorem C11_desc_negates_the_comparator (rt : Runtime) (sortBy orderParam : Str)
    (a b : Device) (hkey : sortBy = "ip".toList ∨ sortBy = "hostname".toList) :
    (orderParam ≠ "desc".toList →
      sortLess rt sortBy (if orderParam = [] then "asc".toList else orderParam) a b =
        sortLess rt sortBy "asc".toList a b) ∧
    (orderParam = "desc".toList →
      sortLess rt sortBy (if orderParam = [] then "asc".toList else orderParam) a b =
        !(sortLess rt sortBy "asc".toList a b)) ∧
    sortLess rt "ip".toList "asc".toList a b = compareIPs rt.parseIPv6 (getIP a) (getIP b) ∧
    sortLess rt "hostname".toList "asc".toList a b =
      strLess (rt.ToLower a.Hostname) (rt.ToLower b.Hostname) ∧
    (∀ devices racks,
      (dashboardData rt sortBy orderParam devices racks).UnassignedDevices =
        sort.Slice (groupDevices devices).2
          (sortLess rt sortBy (if orderParam = [] then "asc".toList else orderParam)) ∧
      (dashboardData rt sortBy orderParam devices racks).RackGroups =
        (buildRackGroups racks (groupDevices devices).1).map
          (fun g => RackGroup.mk g.Rack (sort.Slice g.Devices
            (sortLess rt sortBy (if orderParam = [] then "asc".toList else orderParam))))) ∧
    (dashboardData plainRuntime "hostname".toList "desc".toList namedDevices
        []).UnassignedDevices.map (fun d => d.Hostname) =
      ["c".toList, "b".toList, "a".toList] := by
  have hasc : ("asc".toList = "desc".toList) = False := by decide
  refine ⟨?_, ?_, rfl, rfl, ?_, by decide⟩
  · intro hne
    by_cases he : orderParam = []
    · rw [if_pos he]
    · rw [if_neg he]
      rcases hkey with rfl | rfl
      · simp only [sortLess, if_true, hne, if_false, hasc]
      · have hk : ("hostname".toList = "ip".toList) = False := by decide
        simp only [sortLess, hk, if_true, hne, if_false, hasc]
  · intro hd
    subst hd
    have hn : ("desc".toList = ([] : Str)) = False := by decide
    rcases hkey with rfl | rfl
    · simp only [sortLess, if_true, if_false, hasc, hn]
    · have hk : ("hostname".toList = "ip".toList) = False := by decide
      simp only [sortLess, hk, if_true, if_false, hasc, hn]
  · intro devices racks
    constructor
    · unfold dashboardData
      dsimp only
      split
      · rfl
      · rename_i hlen
        have : (groupDevices devices).2 = [] := by
          cases h : (groupDevices devices).2 with
          | nil => rfl
          | cons x xs => rw [h] at hlen; simp at hlen
        rw [this]
        rfl
    · rfl

/-- C11 on the devices named `b` and `c` under the key `hostname` and the order `desc`: the
comparator is the negation of the ascending one, here true. -/
theorem C11_desc_negates_the_comparator_witness :
    sortLess plainRuntime "hostname".toList
        (if "desc".toList = [] then "asc".toList else "desc".toList)
        { ID := 2, Hostname := "c".toList } { ID := 1, Hostname := "b".toList } =
      !(sortLess plainRuntime "hostname".toList "asc".toList
        { ID := 2, Hostname := "c".toList } { ID := 1, Hostname := "b".toList }) :=
  (C11_desc_negates_the_comparator plainRuntime "hostname".toList "desc".toList
    { ID := 2, Hostname := "c".toList } { ID := 1, Hostname := "b".toList }
    (Or.inr rfl)).2.1 rfl

/-- C13, as the code has it: a failed read of the devices ends `HomeHandler` with status
500 and no dashboard, whatever the rack read gave and whatever the templates would do.
When the devices were read and the templates parse and execute, the dashboard is rendered,
from the racks read or, after a failed rack read (which is only logged), from no racks at
all, and this for every device list: malformed, empty or duplicate addresses never make the
handler fail.  A dashboard is rendered only if the device read succeeded and the templates
worked; a template that does not parse is answered with status 500, one whose execution
fails leaves an aborted page. -/
theorem C13_only_device_read_failure_is_fatal (rt : Runtime) (sortParam orderParam : Str) :
    (∀ (template : TemplateOutcome) (err : Str) (racksResult : Except Str (List Rack)),
      HomeHandler rt sortParam orderParam template (.error err) racksResult =
        .httpError "Could not fetch devices".toList 500) ∧
    (∀ (devices : List Device) (racks : List Rack),
      HomeHandler rt sortParam orderParam .ok (.ok devices) (.ok racks) =
        .rendered "index.html".toList (dashboardData rt sortParam orderParam devices racks)) ∧
    (∀ (devices : List Device) (err : Str),
      HomeHandler rt sortParam orderParam .ok (.ok devices) (.error err) =
        .rendered "index.html".toList (dashboardData rt sortParam orderParam devices [])) ∧
    (∀ (template : TemplateOutcome) (devicesResult : Except Str (List Device))
        (racksResult : Except Str (List Rack)) (view : Str) (data : DashboardData),
      HomeHandler rt sortParam orderParam template devicesResult racksResult =
          .rendered view data →
        (∃ devices, devicesResult = .ok devices) ∧ template = .ok) ∧
    (∀ (devices : List Device) (racksResult : Except Str (List Rack)),
      HomeHandler rt sortParam orderParam .parseFailed (.ok devices) racksResult =
        .httpError "Internal Server Error".toList 500) ∧
    (∀ (devices : List Device) (racksResult : Except Str (List Rack)),
      ∃ data, HomeHandler rt sortParam orderParam .executeFailed (.ok devices) racksResult =
        .aborted "index.html".toList data) := by
  refine ⟨fun _ _ _ => rfl, fun _ _ => rfl, fun _ _ => rfl, ?_, fun _ _ => rfl,
    fun _ _ => ⟨_, rfl⟩⟩
  intro template devicesResult racksResult view data h
  cases devicesResult with
  | error e => simp [HomeHandler] at h
  | ok devices =>
    refine ⟨⟨devices, rfl⟩, ?_⟩
    cases template with
    | parseFailed => simp [HomeHandler, render] at h
    | executeFailed => simp [HomeHandler, render] at h
    | ok => rfl

/-- C13 as stated fails: with the devices read, the rack read failed and working
templates, `HomeHandler` renders a dashboard all the same, here one whose only device, a
device of rack 7, is in no group. -/
theorem C13_counterexample_rack_read_failure :
    ∃ data,
      HomeHandler plainRuntime [] [] .ok (.ok [{ ID := 1, RackID := 7 }])
        (.error "database is locked".toList) = .rendered "index.html".toList data ∧
      data.RackGroups = [] ∧ data.UnassignedDevices = [] :=
  ⟨_, rfl, rfl, rfl⟩

/-- C18: the two copies of the subnet inference agree: the counter map computed by
`ScanSubnetHandler`, which has no test for the empty address, is the one computed by
`HomeHandler`, and with the same runtime (the same visiting order of the map and the same
default) both handlers select the same subnet. -/
theorem C18_scan_and_home_infer_the_same_subnet (rt : Runtime) (sortParam orderParam : Str)
    (devices : List Device) (racks : List Rack) :
    scanSubnetCounts devices = (collectAddresses devices).subnetCounts ∧
    scanTargetSubnet rt devices =
      (dashboardData rt sortParam orderParam devices racks).Subnet ∧
    (∀ (t : List (Str × Nat)) (iface : DeviceInterface), iface.IPAddress = [] →
      scanCountIface t iface = t) := by
  refine ⟨scanSubnetCounts_eq devices, ?_, ?_⟩
  · rw [scanTargetSubnet_eq, dashboardData_Subnet]
  · intro t iface he
    simp [scanCountIface, he, strings.ReplaceAll, strings.Split]

theorem collectIface_usedIPs_eq (d : Device) (t : AddrTables) (iface : DeviceInterface) :
    (collectIface d t iface).usedIPs =
      if (strings.Split (strings.ReplaceAll iface.IPAddress ' ') '.').length = 4 then
        mapSet t.usedIPs (strings.ReplaceAll iface.IPAddress ' ') d
      else t.usedIPs := by
  unfold collectIface
  by_cases he : iface.IPAddress = []
  · simp [he, strings.ReplaceAll, strings.Split]
  · by_cases h4 : (strings.Split (strings.ReplaceAll iface.IPAddress ' ') '.').length = 4
    · simp [he, h4]
    · simp [he, h4]

theorem replaceAll_not_mem (s : Str) (c : Char) : c ∉ strings.ReplaceAll s c := by
  simp [strings.ReplaceAll]

theorem replaceAll_append (a b : Str) (c : Char) :
    strings.ReplaceAll (a ++ b) c = strings.ReplaceAll a c ++ strings.ReplaceAll b c := by
  simp [strings.ReplaceAll]

theorem replaceAll_cons_ne (x : Char) (b : Str) (c : Char) (h : x ≠ c) :
    strings.ReplaceAll (x :: b) c = x :: strings.ReplaceAll b c := by
  simp [strings.ReplaceAll, List.filter_cons, h]

/-- C17, as the code has it: normalization removes every space character and nothing
else.  The normalized form contains no space, a space inserted anywhere in an address does
not change its normalized form, and two interfaces whose addresses have the same
normalized form give the same candidate prefix, the same lookup key and the same updates
of the counter map and of the address lookup, in `HomeHandler` and in
`ScanSubnetHandler`.  Every other character is kept where it is: an address without space
is its own normalized form, and a character other than the space, a tab or a newline for
one, inserted anywhere in an address changes the normalized form, hence the lookup key. -/
theorem C17_normalization_strips_spaces (a b : Str) (i1 i2 : DeviceInterface)
    (h : strings.ReplaceAll i1.IPAddress ' ' = strings.ReplaceAll i2.IPAddress ' ') :
    ' ' ∉ strings.ReplaceAll a ' ' ∧
    strings.ReplaceAll (a ++ ' ' :: b) ' ' = strings.ReplaceAll (a ++ b) ' ' ∧
    (∀ p, hasPrefix p i1 = hasPrefix p i2) ∧
    (∀ k, claimsAddr k i1 = claimsAddr k i2) ∧
    (∀ d t, (collectIface d t i1).subnetCounts = (collectIface d t i2).subnetCounts ∧
      (collectIface d t i1).usedIPs = (collectIface d t i2).usedIPs) ∧
    (∀ m, scanCountIface m i1 = scanCountIface m i2) ∧
    (' ' ∉ a → strings.ReplaceAll a ' ' = a) ∧
    (∀ c, c ≠ ' ' →
      strings.ReplaceAll (a ++ c :: b) ' ' =
        strings.ReplaceAll a ' ' ++ c :: strings.ReplaceAll b ' ') ∧
    (∀ c, c ≠ ' ' →
      strings.ReplaceAll (a ++ c :: b) ' ' ≠ strings.ReplaceAll (a ++ b) ' ') ∧
    strings.ReplaceAll (a ++ '\t' :: b) ' ' ≠ strings.ReplaceAll (a ++ b) ' ' ∧
    strings.ReplaceAll (a ++ '\n' :: b) ' ' ≠ strings.ReplaceAll (a ++ b) ' ' := by
  have hkeep : ∀ c, c ≠ ' ' →
      strings.ReplaceAll (a ++ c :: b) ' ' =
        strings.ReplaceAll a ' ' ++ c :: strings.ReplaceAll b ' ' := by
    intro c hc
    rw [replaceAll_append, replaceAll_cons_ne c b ' ' hc]
  have hdiff : ∀ c, c ≠ ' ' →
      strings.ReplaceAll (a ++ c :: b) ' ' ≠ strings.ReplaceAll (a ++ b) ' ' := by
    intro c hc heq
    rw [hkeep c hc, replaceAll_append] at heq
    have := congrArg List.length heq
    simp at this
  refine ⟨replaceAll_not_mem a ' ', ?_, ?_, ?_, ?_, ?_, replaceAll_of_not_mem a ' ', hkeep,
    hdiff, hdiff _ (by decide), hdiff _ (by decide)⟩
  · simp [strings.ReplaceAll]
  · intro p; simp only [hasPrefix, h]
  · intro k; simp only [claimsAddr, h]
  · intro d t
    constructor
    · rw [scanCountIface_eq, scanCountIface_eq]
      simp only [scanCountIface, h]
    · rw [collectIface_usedIPs_eq, collectIface_usedIPs_eq, h]
  · intro m; simp only [scanCountIface, h]

/-- C17 on `10.0. 0.5` and `10.0.0.5`: the two interfaces count for the same prefixes;
and `10.0.<tab>0.5` does not have the normalized form of `10.0.0.5`. -/
theorem C17_normalization_strips_spaces_witness :
    hasPrefix "10.0.0".toList { IPAddress := "10.0. 0.5".toList } =
      hasPrefix "10.0.0".toList { IPAddress := "10.0.0.5".toList } ∧
    strings.ReplaceAll ("10.0.".toList ++ '\t' :: "0.5".toList) ' ' ≠
      strings.ReplaceAll ("10.0.".toList ++ "0.5".toList) ' ' :=
  have h := C17_normalization_strips_spaces "10.0.".toList "0.5".toList
    { IPAddress := "10.0. 0.5".toList } { IPAddress := "10.0.0.5".toList } (by decide)
  ⟨h.2.2.1 "10.0.0".toList, h.2.2.2.2.2.2.2.2.2.1⟩

/-- C17 as stated fails: a tab is whitespace and is not removed.  The normalized form of
`10.0.<tab>0.5` contains the tab and differs from that of `10.0.0.5`, and the interface
counts for the prefix `10.0.<tab>0` instead of `10.0.0`. -/
theorem C17_counterexample_tab_is_kept :
    '\t' ∈ strings.ReplaceAll "10.0.\t0.5".toList ' ' ∧
    strings.ReplaceAll "10.0.\t0.5".toList ' ' ≠ strings.ReplaceAll "10.0.0.5".toList ' ' ∧
    hasPrefix "10.0.0".toList { IPAddress := "10.0.\t0.5".toList } = false ∧
    hasPrefix "10.0.0".toList { IPAddress := "10.0.0.5".toList } = true ∧
    hasPrefix "10.0.\t0".toList { IPAddress := "10.0.\t0.5".toList } = true := by
  decide

/-! ### Determinism of the inference -/

/-- C16, as the code has it: two runs on the same device list with the same configured
default, under any two visiting orders of the counter map, infer the same subnet and build
the same IP map provided at most one prefix attains the highest counter when that counter
is 2 or more; when no counter reaches 2 both runs keep the default. -/
theorem C16_deterministic_without_tie (rt1 rt2 : Runtime) (hfair1 : rt1.Fair)
    (hfair2 : rt2.Fair) (henv : rt1.IP_RANGE_START = rt2.IP_RANGE_START)
    (sortParam orderParam : Str) (devices : List Device) (racks : List Rack)
    (huniq : ∀ p q, 2 ≤ prefixCount devices p → (∀ r, prefixCount devices r ≤ prefixCount devices p) →
      (∀ r, prefixCount devices r ≤ prefixCount devices q) → p = q) :
    (dashboardData rt1 sortParam orderParam devices racks).Subnet =
      (dashboardData rt2 sortParam orderParam devices racks).Subnet ∧
    (dashboardData rt1 sortParam orderParam devices racks).IPMap =
      (dashboardData rt2 sortParam orderParam devices racks).IPMap := by
  have hsub : (dashboardData rt1 sortParam orderParam devices racks).Subnet =
      (dashboardData rt2 sortParam orderParam devices racks).Subnet := by
    rw [dashboardData_Subnet, dashboardData_Subnet]
    by_cases h : ∃ p, 2 ≤ prefixCount devices p
    · obtain ⟨h1, h1'⟩ := selectSubnet_max rt1 hfair1 devices h
      obtain ⟨-, h2'⟩ := selectSubnet_max rt2 hfair2 devices h
      exact huniq _ _ h1 h1' h2'
    · have hlt : ∀ p, prefixCount devices p < 2 := by
        intro p
        by_contra hp
        exact h ⟨p, by omega⟩
      rw [selectSubnet_default rt1 hfair1 devices hlt,
        selectSubnet_default rt2 hfair2 devices hlt]
      simp [defaultSubnet, henv]
  refine ⟨hsub, ?_⟩
  rw [dashboardData_IPMap, dashboardData_IPMap, hsub]

/-- C16 as stated fails: on four devices, two in `10.0.0` and two in `10.0.1`, the run that
visits the counter map in one order infers `10.0.0` and the run that visits it in the
opposite order infers `10.0.1`; the first slots of the two IP maps differ. -/
theorem C16_counterexample_tie :
    plainRuntime.Fair ∧ reversingRuntime.Fair ∧
    plainRuntime.IP_RANGE_START = reversingRuntime.IP_RANGE_START ∧
    (dashboardData plainRuntime [] [] tiedDevices []).Subnet = "10.0.0".toList ∧
    (dashboardData reversingRuntime [] [] tiedDevices []).Subnet = "10.0.1".toList ∧
    (dashboardData plainRuntime [] [] tiedDevices []).IPMap ≠
      (dashboardData reversingRuntime [] [] tiedDevices []).IPMap := by
  refine ⟨plainRuntime_fair, reversingRuntime_fair, rfl, by decide, by decide, ?_⟩
  intro h
  have h1 := dashboardData_slot plainRuntime [] [] tiedDevices [] 1 (by decide) (by decide)
  have h2 := dashboardData_slot reversingRuntime [] [] tiedDevices [] 1 (by decide) (by decide)
  rw [h, h2] at h1
  revert h1
  decide

theorem prefixCount_eq_count (devices : List Device) (p : Str) :
    prefixCount devices p = (validPrefixes devices).count p := by
  unfold prefixCount validPrefixes
  induction interfacePairs devices with
  | nil => rfl
  | cons q l ih =>
    by_cases h4 : (strings.Split (strings.ReplaceAll q.2.IPAddress ' ') '.').length = 4
    · by_cases hp : strings.Join
          ((strings.Split (strings.ReplaceAll q.2.IPAddress ' ') '.').take 3) '.' = p
      · have hq : hasPrefix p q.2 = true := by simp [hasPrefix, h4, hp]
        simp [List.filter_cons, List.filterMap_cons, hq, h4, hp, ih]
      · have hq : hasPrefix p q.2 = false := by simp [hasPrefix, h4, hp]
        simp [List.filter_cons, List.filterMap_cons, hq, h4, hp, ih, List.count_cons]
    · have hq : hasPrefix p q.2 = false := by simp [hasPrefix, h4]
      simp [List.filter_cons, List.filterMap_cons, hq, h4, ih]

theorem mixedDevices_count (p : Str) (h : 2 ≤ prefixCount mixedDevices p) :
    p = "10.0.0".toList := by
  rw [prefixCount_eq_count] at h
  have hv : validPrefixes mixedDevices =
      ["172.16.0".toList, "10.0.0".toList, "10.0.0".toList] := by decide
  rw [hv] at h
  by_contra hne
  have hne' : ¬ "10.0.0".toList = p := fun e => hne e.symm
  rw [List.count_cons, List.count_cons, List.count_cons, List.count_nil] at h
  simp only [beq_iff_eq, hne', if_false] at h
  split at h <;> omega

/-- The amended C16 on `mixedDevices`, where `10.0.0` alone has the highest counter: the
run that visits the counter map in order and the run that visits it backwards infer the same
subnet and build the same IP map. -/
theorem C16_deterministic_without_tie_witness :
    (dashboardData plainRuntime [] [] mixedDevices []).Subnet =
      (dashboardData reversingRuntime [] [] mixedDevices []).Subnet ∧
    (dashboardData plainRuntime [] [] mixedDevices []).IPMap =
      (dashboardData reversingRuntime [] [] mixedDevices []).IPMap :=
  C16_deterministic_without_tie plainRuntime reversingRuntime plainRuntime_fair
    reversingRuntime_fair rfl [] [] mixedDevices []
    (fun p q hp _ hq =>
      (mixedDevices_count p hp).trans
        (mixedDevices_count q (le_trans (by decide) (hq "10.0.0".toList))).symm)

/-! ### Order properties of the comparators -/

theorem strLess_irrefl (a : Str) : strLess a a = false := by
  induction a with
  | nil => rfl
  | cons x xs ih => simp [strLess, ih]

theorem strLess_trans (a b c : Str) (h1 : strLess a b = true) (h2 : strLess b c = true) :
    strLess a c = true := by
  induction a generalizing b c with
  | nil =>
    cases b with
    | nil => simp [strLess] at h1
    | cons y ys =>
      cases c with
      | nil => simp [strLess] at h2
      | cons z zs => simp [strLess]
  | cons x xs ih =>
    cases b with
    | nil => simp [strLess] at h1
    | cons y ys =>
      cases c with
      | nil => simp [strLess] at h2
      | cons z zs =>
        unfold strLess at h1 h2 ⊢
        by_cases hxy : x < y
        · by_cases hyz : y < z
          · simp [lt_trans hxy hyz]
          · by_cases hzy : z < y
            · simp [hyz, hzy] at h2
            · have : y = z := le_antisymm (not_lt.1 hzy) (not_lt.1 hyz)
              subst this
              simp [hxy]
        · by_cases hyx : y < x
          · simp [hxy, hyx] at h1
          · have : x = y := le_antisymm (not_lt.1 hyx) (not_lt.1 hxy)
            subst this
            simp only [hxy, if_false] at h1
            by_cases hyz : x < z
            · simp [hyz]
            · by_cases hzy : z < x
              · simp [hyz, hzy] at h2
              · simp only [hyz, hzy, if_false] at h2 ⊢
                exact ih ys zs h1 h2

theorem strLess_asymm (a b : Str) (h : strLess a b = true) : strLess b a = false := by
  cases hba : strLess b a with
  | false => rfl
  | true =>
    have := strLess_trans a b a h hba
    rw [strLess_irrefl] at this
    cases this

theorem bytesCompare_self (xs : List Nat) : bytesCompare xs xs = 0 := by
  induction xs with
  | nil => rfl
  | cons x xs ih => simp [bytesCompare, ih]

theorem bytesCompare_trans (xs ys zs : List Nat) (h1 : bytesCompare xs ys < 0)
    (h2 : bytesCompare ys zs < 0) : bytesCompare xs zs < 0 := by
  induction xs generalizing ys zs with
  | nil =>
    cases ys with
    | nil => simp [bytesCompare] at h1
    | cons y ys =>
      cases zs with
      | nil => simp [bytesCompare] at h2
      | cons z zs => simp [bytesCompare]
  | cons x xs ih =>
    cases ys with
    | nil => simp [bytesCompare] at h1
    | cons y ys =>
      cases zs with
      | nil => simp [bytesCompare] at h2
      | cons z zs =>
        unfold bytesCompare at h1 h2 ⊢
        by_cases hxy : x < y
        · by_cases hyz : y < z
          · have : x < z := lt_trans hxy hyz
            simp [this]
          · by_cases hzy : y > z
            · simp [hyz, hzy] at h2
            · have : y = z := by omega
              subst this
              simp [hxy]
        · by_cases hyx : x > y
          · simp [hxy, hyx] at h1
          · have : x = y := by omega
            subst this
            simp only [hxy, hyx, if_false] at h1
            by_cases hyz : x < z
            · simp [hyz]
            · by_cases hzy : x > z
              · simp [hyz, hzy] at h2
              · simp only [hyz, hzy, if_false] at h2 ⊢
                exact ih ys zs h1 h2

theorem bytesCompare_asymm (xs ys : List Nat) (h : bytesCompare xs ys < 0) :
    ¬ bytesCompare ys xs < 0 := by
  intro h'
  have := bytesCompare_trans xs ys xs h h'
  rw [bytesCompare_self] at this
  exact absurd this (by decide)

theorem compareIPs_parsed (parseIPv6 : Str → Option (List Nat)) (a b : Str) (p q : List Nat)
    (ha : ParseIP parseIPv6 a = some p) (hb : ParseIP parseIPv6 b = some q) :
    compareIPs parseIPv6 a b =
      match To4 p, To4 q with
      | some p14, some p24 => decide (bytesCompare p14 p24 < 0)
      | _, _ => decide (bytesCompare p q < 0) := by
  unfold compareIPs
  rw [ha, hb]

theorem compareIPs_irrefl (parseIPv6 : Str → Option (List Nat)) (a : Str) :
    compareIPs parseIPv6 a a = false := by
  cases ha : ParseIP parseIPv6 a with
  | none =>
    unfold compareIPs
    rw [ha]
    exact strLess_irrefl a
  | some p =>
    rw [compareIPs_parsed parseIPv6 a a p p ha ha]
    cases To4 p <;> simp [bytesCompare_self]

theorem compareIPs_asymm (parseIPv6 : Str → Option (List Nat)) (a b : Str)
    (h : compareIPs parseIPv6 a b = true) : compareIPs parseIPv6 b a = false := by
  cases ha : ParseIP parseIPv6 a with
  | none =>
    unfold compareIPs at h ⊢
    rw [ha] at h ⊢
    cases hb : ParseIP parseIPv6 b with
    | none => exact strLess_asymm a b h
    | some q => exact strLess_asymm a b h
  | some p =>
    cases hb : ParseIP parseIPv6 b with
    | none =>
      unfold compareIPs at h ⊢
      rw [ha, hb] at h ⊢
      exact strLess_asymm a b h
    | some q =>
      rw [compareIPs_parsed parseIPv6 a b p q ha hb] at h
      rw [compareIPs_parsed parseIPv6 b a q p hb ha]
      cases hp : To4 p <;> cases hq : To4 q <;> simp only [hp, hq] at h ⊢ <;>
        simpa using bytesCompare_asymm _ _ (by simpa using h)

theorem compareIPs_of_unparsed (parseIPv6 : Str → Option (List Nat)) (a b : Str)
    (h : ParseIP parseIPv6 a = none ∨ ParseIP parseIPv6 b = none) :
    compareIPs parseIPv6 a b = strLess a b := by
  unfold compareIPs
  rcases h with h | h
  · rw [h]
  · rw [h]
    cases ParseIP parseIPv6 a <;> rfl

theorem sortLess_ip (rt : Runtime) (sortOrder : Str) (a b : Device)
    (ho : sortOrder ≠ "desc".toList) :
    sortLess rt "ip".toList sortOrder a b = compareIPs rt.parseIPv6 (getIP a) (getIP b) := by
  simp only [sortLess, if_true, ho, if_false]

theorem sortLess_hostname (rt : Runtime) (sortOrder : Str) (a b : Device)
    (ho : sortOrder ≠ "desc".toList) :
    sortLess rt "hostname".toList sortOrder a b =
      strLess (rt.ToLower a.Hostname) (rt.ToLower b.Hostname) := by
  have hk : ("hostname".toList = "ip".toList) = False := by decide
  simp only [sortLess, hk, if_false, if_true, ho]

theorem sortLess_default (rt : Runtime) (sortBy sortOrder : Str) (a b : Device)
    (h1 : sortBy ≠ "ip".toList) (h2 : sortBy ≠ "hostname".toList) :
    sortLess rt sortBy sortOrder a b = decide (a.ID < b.ID) := by
  simp only [sortLess, h1, h2, if_false]

theorem strLess_neg_trans (a b c : Str) (h1 : strLess a b = false) (h2 : strLess b c = false) :
    strLess a c = false := by
  induction a generalizing b c with
  | nil =>
    cases b with
    | nil => exact h2
    | cons y ys => simp [strLess] at h1
  | cons x xs ih =>
    cases c with
    | nil => simp [strLess]
    | cons z zs =>
      cases b with
      | nil => simp [strLess] at h2
      | cons y ys =>
        unfold strLess at h1 h2 ⊢
        by_cases hxy : x < y
        · simp [hxy] at h1
        · by_cases hyz : y < z
          · simp [hyz] at h2
          · have hxz : ¬ x < z := fun h => by
              rcases lt_trichotomy y x with hlt | heq | hgt
              · exact hyz (lt_trans hlt h)
              · exact hyz (heq ▸ h)
              · exact hxy hgt
            simp only [hxz, if_false]
            by_cases hzx : z < x
            · simp [hzx]
            · have hxz' : x = z := le_antisymm (not_lt.1 hzx) (not_lt.1 hxz)
              subst hxz'
              have hyx : ¬ y < x := hyz
              have hxy' : x = y := le_antisymm (not_lt.1 hyx) (not_lt.1 hxy)
              subst hxy'
              simp only [hxz, if_false] at h1 h2 ⊢
              exact ih ys zs h1 h2

theorem bytesCompare_neg_trans (xs ys zs : List Nat) (h1 : ¬ bytesCompare xs ys < 0)
    (h2 : ¬ bytesCompare ys zs < 0) : ¬ bytesCompare xs zs < 0 := by
  induction xs generalizing ys zs with
  | nil =>
    cases ys with
    | nil => exact h2
    | cons y ys => simp [bytesCompare] at h1
  | cons x xs ih =>
    cases zs with
    | nil => simp [bytesCompare]
    | cons z zs =>
      cases ys with
      | nil => simp [bytesCompare] at h2
      | cons y ys =>
        unfold bytesCompare at h1 h2 ⊢
        by_cases hxy : x < y
        · simp [hxy] at h1
        · by_cases hyz : y < z
          · simp [hyz] at h2
          · have hxz : ¬ x < z := by omega
            simp only [hxz, if_false]
            by_cases hzx : x > z
            · simp [hzx]
            · have e1 : x = z := by omega
              subst e1
              have e2 : x = y := by omega
              subst e2
              simp only [hxz, hzx, if_false] at h1 h2 ⊢
              exact ih ys zs h1 h2

theorem bytesCompare_append_left (pre xs ys : List Nat) :
    bytesCompare (pre ++ xs) (pre ++ ys) = bytesCompare xs ys := by
  induction pre with
  | nil => rfl
  | cons p ps ih => simp [bytesCompare, ih]

theorem To4_of_length_16 (p p4 : List Nat) (hlen : p.length = 16) (h : To4 p = some p4) :
    p = v4InV6Prefix ++ p4 := by
  match p, hlen with
  | [a0, a1, a2, a3, a4, a5, a6, a7, a8, a9, a10, a11, a12, a13, a14, a15], _ =>
    simp only [To4, List.length_cons, List.length_nil] at h
    split at h
    · rename_i hc; omega
    · split at h
      · rename_i hc
        cases h
        obtain ⟨-, hz, h10, h11⟩ := hc
        simp only [List.take, List.all_cons, List.all_nil, Bool.and_true, Bool.and_eq_true,
          decide_eq_true_eq] at hz
        simp only [List.get?_eq_getElem?] at h10 h11
        simp at h10 h11
        obtain ⟨rfl, rfl, rfl, rfl, rfl, rfl, rfl, rfl, rfl, rfl⟩ := hz
        subst h10 h11
        rfl
      · cases h

theorem ParseIP_length (parseIPv6 : Str → Option (List Nat))
    (hsize : ∀ s p, parseIPv6 s = some p → p.length = 16) (s : Str) (p : List Nat)
    (h : ParseIP parseIPv6 s = some p) : p.length = 16 := by
  unfold ParseIP at h
  split at h
  · rename_i c _
    by_cases h1 : c = '.'
    · rw [if_pos h1] at h
      cases h4 : parseIPv4 s with
      | none => rw [h4] at h; cases h
      | some o =>
        rw [h4] at h
        simp only [Option.map_some', Option.some.injEq] at h
        rw [← h, List.length_append, parseIPv4_length s o h4]
        rfl
    · rw [if_neg h1] at h
      by_cases h2 : c = ':'
      · rw [if_pos h2] at h
        exact hsize s p h
      · rw [if_neg h2] at h
        cases h
  · cases h

theorem compareIPs_parsed_16 (parseIPv6 : Str → Option (List Nat))
    (hsize : ∀ s p, parseIPv6 s = some p → p.length = 16) (a b : Str) (p q : List Nat)
    (ha : ParseIP parseIPv6 a = some p) (hb : ParseIP parseIPv6 b = some q) :
    compareIPs parseIPv6 a b = decide (bytesCompare p q < 0) := by
  rw [compareIPs_parsed parseIPv6 a b p q ha hb]
  have hp := ParseIP_length parseIPv6 hsize a p ha
  have hq := ParseIP_length parseIPv6 hsize b q hb
  cases h4p : To4 p with
  | none => rfl
  | some p4 =>
    cases h4q : To4 q with
    | none => rfl
    | some q4 =>
      have e1 := To4_of_length_16 p p4 hp h4p
      have e2 := To4_of_length_16 q q4 hq h4q
      simp only []
      rw [e1, e2, bytesCompare_append_left]

theorem sortLess_ip_desc (rt : Runtime) (a b : Device) :
    sortLess rt "ip".toList "desc".toList a b =
      !compareIPs rt.parseIPv6 (getIP a) (getIP b) := by
  simp only [sortLess, if_true]

theorem sortLess_hostname_desc (rt : Runtime) (a b : Device) :
    sortLess rt "hostname".toList "desc".toList a b =
      !strLess (rt.ToLower a.Hostname) (rt.ToLower b.Hostname) := by
  have hk : ("hostname".toList = "ip".toList) = False := by decide
  simp only [sortLess, hk, if_false, if_true]

theorem compareIPs_trans_uniform (parseIPv6 : Str → Option (List Nat))
    (hsize : ∀ s p, parseIPv6 s = some p → p.length = 16) (x y z : Str)
    (hcases : ((ParseIP parseIPv6 x).isSome = true ∧ (ParseIP parseIPv6 y).isSome = true ∧
        (ParseIP parseIPv6 z).isSome = true) ∨
      (ParseIP parseIPv6 x = none ∧ ParseIP parseIPv6 y = none ∧
        ParseIP parseIPv6 z = none)) :
    (compareIPs parseIPv6 x y = true → compareIPs parseIPv6 y z = true →
      compareIPs parseIPv6 x z = true) ∧
    (compareIPs parseIPv6 x y = false → compareIPs parseIPv6 y z = false →
      compareIPs parseIPv6 x z = false) := by
  rcases hcases with ⟨hx, hy, hz⟩ | ⟨hx, hy, hz⟩
  · obtain ⟨p, hx⟩ := Option.isSome_iff_exists.1 hx
    obtain ⟨q, hy⟩ := Option.isSome_iff_exists.1 hy
    obtain ⟨r, hz⟩ := Option.isSome_iff_exists.1 hz
    rw [compareIPs_parsed_16 parseIPv6 hsize x y p q hx hy,
      compareIPs_parsed_16 parseIPv6 hsize y z q r hy hz,
      compareIPs_parsed_16 parseIPv6 hsize x z p r hx hz]
    simp only [decide_eq_true_eq, decide_eq_false_iff_not]
    exact ⟨bytesCompare_trans p q r, bytesCompare_neg_trans p q r⟩
  · rw [compareIPs_of_unparsed _ _ _ (Or.inl hx), compareIPs_of_unparsed _ _ _ (Or.inl hy),
      compareIPs_of_unparsed _ _ _ (Or.inl hx)]
    exact ⟨strLess_trans _ _ _, strLess_neg_trans _ _ _⟩

/-- C19, as the code has it.  The comparator is transitive for every sort key and both
directions, for the key `ip` over addresses that all parse as IP addresses or that all
fail to parse (`net.ParseIP` returning 16-byte forms).  Without a sort key it is the
identifier order, whatever the order parameter, and is irreflexive and asymmetric; with
the key `ip` or `hostname` and an order other than `desc` it is irreflexive and asymmetric
too.  With the order `desc` and one of the two keys it is the negation of the ascending
comparator: it holds of every device with itself, and it holds in both directions only
of two devices that the ascending comparator does not tell apart. -/
theorem C19_comparator_order_properties (rt : Runtime)
    (hsize : ∀ s p, rt.parseIPv6 s = some p → p.length = 16) (sortBy sortOrder : Str)
    (a b c : Device) :
    (sortBy ≠ "ip".toList → sortBy ≠ "hostname".toList →
      sortLess rt sortBy sortOrder a a = false ∧
      (sortLess rt sortBy sortOrder a b = true → sortLess rt sortBy sortOrder b a = false) ∧
      (sortLess rt sortBy sortOrder a b = true → sortLess rt sortBy sortOrder b c = true →
        sortLess rt sortBy sortOrder a c = true)) ∧
    (sortOrder ≠ "desc".toList →
      sortLess rt sortBy sortOrder a a = false ∧
      (sortLess rt sortBy sortOrder a b = true → sortLess rt sortBy sortOrder b a = false)) ∧
    (sortLess rt "hostname".toList sortOrder a b = true →
      sortLess rt "hostname".toList sortOrder b c = true →
      sortLess rt "hostname".toList sortOrder a c = true) ∧
    (((ParseIP rt.parseIPv6 (getIP a)).isSome = true ∧
          (ParseIP rt.parseIPv6 (getIP b)).isSome = true ∧
          (ParseIP rt.parseIPv6 (getIP c)).isSome = true) ∨
        (ParseIP rt.parseIPv6 (getIP a) = none ∧ ParseIP rt.parseIPv6 (getIP b) = none ∧
          ParseIP rt.parseIPv6 (getIP c) = none) →
      sortLess rt "ip".toList sortOrder a b = true →
      sortLess rt "ip".toList sortOrder b c = true →
      sortLess rt "ip".toList sortOrder a c = true) ∧
    (sortBy = "ip".toList ∨ sortBy = "hostname".toList →
      sortLess rt sortBy "desc".toList a a = true) ∧
    (sortBy = "ip".toList ∨ sortBy = "hostname".toList →
      sortLess rt sortBy "desc".toList a b = true →
      sortLess rt sortBy "desc".toList b a = true →
      sortLess rt sortBy "asc".toList a b = false ∧
        sortLess rt sortBy "asc".toList b a = false) := by
  have hasc : "asc".toList ≠ "desc".toList := by decide
  refine ⟨?_, ?_, ?_, ?_, ?_, ?_⟩
  · intro h1 h2
    simp only [sortLess_default rt sortBy sortOrder _ _ h1 h2, decide_eq_true_eq,
      decide_eq_false_iff_not]
    exact ⟨lt_irrefl _, fun h => not_lt.2 (le_of_lt h), fun h h' => lt_trans h h'⟩
  · intro ho
    by_cases h1 : sortBy = "ip".toList
    · subst h1
      simp only [sortLess_ip rt sortOrder _ _ ho]
      exact ⟨compareIPs_irrefl _ _, compareIPs_asymm _ _ _⟩
    · by_cases h2 : sortBy = "hostname".toList
      · subst h2
        simp only [sortLess_hostname rt sortOrder _ _ ho]
        exact ⟨strLess_irrefl _, strLess_asymm _ _⟩
      · simp only [sortLess_default rt sortBy sortOrder _ _ h1 h2, decide_eq_true_eq,
          decide_eq_false_iff_not]
        exact ⟨lt_irrefl _, fun h => not_lt.2 (le_of_lt h)⟩
  · by_cases ho : sortOrder = "desc".toList
    · subst ho
      simp only [sortLess_hostname_desc, Bool.not_eq_true']
      exact strLess_neg_trans _ _ _
    · simp only [sortLess_hostname rt sortOrder _ _ ho]
      exact strLess_trans _ _ _
  · intro hcases
    have htr := compareIPs_trans_uniform rt.parseIPv6 hsize (getIP a) (getIP b) (getIP c) hcases
    by_cases ho : sortOrder = "desc".toList
    · subst ho
      simp only [sortLess_ip_desc, Bool.not_eq_true']
      exact htr.2
    · simp only [sortLess_ip rt sortOrder _ _ ho]
      exact htr.1
  · intro hk
    rcases hk with rfl | rfl
    · simp only [sortLess, if_true, compareIPs_irrefl, Bool.not_false]
    · have hk : ("hostname".toList = "ip".toList) = False := by decide
      simp only [sortLess, hk, if_false, if_true, strLess_irrefl, Bool.not_false]
  · intro hk h1 h2
    rcases hk with rfl | rfl
    · rw [sortLess_ip_desc, Bool.not_eq_true'] at h1 h2
      rw [sortLess_ip rt _ _ _ hasc, sortLess_ip rt _ _ _ hasc]
      exact ⟨h1, h2⟩
    · rw [sortLess_hostname_desc, Bool.not_eq_true'] at h1 h2
      rw [sortLess_hostname rt _ _ _ hasc, sortLess_hostname rt _ _ _ hasc]
      exact ⟨h1, h2⟩

/-- C19 as stated fails twice.  Under the key `hostname` and the order `desc` the
comparator holds of a device with itself.  Under the key `ip`, ascending, `10.0.0.2` is
before `10.0.0.10` (numerically) and `10.0.0.10` is before the unparseable `10.0.0.1z` (as
strings), but `10.0.0.2` is not before `10.0.0.1z`. -/
theorem C19_counterexample_not_a_strict_order :
    sortLess plainRuntime "hostname".toList "desc".toList (deviceAt "10.0.0.2")
      (deviceAt "10.0.0.2") = true ∧
    sortLess plainRuntime "ip".toList "asc".toList (deviceAt "10.0.0.2")
      (deviceAt "10.0.0.10") = true ∧
    sortLess plainRuntime "ip".toList "asc".toList (deviceAt "10.0.0.10")
      (deviceAt "10.0.0.1z") = true ∧
    sortLess plainRuntime "ip".toList "asc".toList (deviceAt "10.0.0.2")
      (deviceAt "10.0.0.1z") = false := by
  decide

/-- The amended C19 on `10.0.0.10`, `10.0.0.2`, `10.0.0.1` under the key `ip` and the order
`desc`: the comparator is transitive there. -/
theorem C19_comparator_order_properties_witness :
    sortLess plainRuntime "ip".toList "desc".toList (deviceAt "10.0.0.10")
      (deviceAt "10.0.0.1") = true :=
  (C19_comparator_order_properties plainRuntime (fun _ _ h => nomatch h) "ip".toList
    "desc".toList (deviceAt "10.0.0.10") (deviceAt "10.0.0.2") (deviceAt "10.0.0.1")).2.2.2.1
    (Or.inl (by decide)) (by decide) (by decide)

/-! ### The grouping by rack -/

theorem sink_perm {α : Type} (less : α → α → Bool) (x : α) (rev : List α) :
    (insertionSortLessFunc.sink less x rev).Perm (x :: rev) := by
  induction rev with
  | nil => exact List.Perm.refl _
  | cons y ys ih =>
    unfold insertionSortLessFunc.sink
    split
    · exact ((List.Perm.cons y ih).trans (List.Perm.swap x y ys))
    · exact List.Perm.refl _

theorem foldl_sink_perm {α : Type} (less : α → α → Bool) (xs rev : List α) :
    (xs.foldl (fun rev x => insertionSortLessFunc.sink less x rev) rev).Perm (xs ++ rev) := by
  induction xs generalizing rev with
  | nil => exact List.Perm.refl _
  | cons x xs ih =>
    rw [List.foldl_cons]
    refine (ih _).trans ?_
    refine (List.Perm.append_left xs (sink_perm less x rev)).trans ?_
    exact List.perm_middle

theorem sortSlice_perm {α : Type} (data : List α) (less : α → α → Bool) :
    (sort.Slice data less).Perm data := by
  unfold sort.Slice insertionSortLessFunc
  refine (List.reverse_perm _).trans ?_
  simpa using foldl_sink_perm less data []

theorem groupDevices_append (ds : List Device) (d : Device) :
    groupDevices (ds ++ [d]) =
      if d.RackID ≠ 0 then
        (mapSet (groupDevices ds).1 d.RackID
          ((mapGet (groupDevices ds).1 d.RackID).getD [] ++ [d]), (groupDevices ds).2)
      else ((groupDevices ds).1, (groupDevices ds).2 ++ [d]) := by
  simp only [groupDevices, List.foldl_append, List.foldl_cons, List.foldl_nil]

theorem groupDevices_spec (devices : List Device) :
    (groupDevices devices).2 = devices.filter (fun d => decide (d.RackID = 0)) ∧
    ∀ k, (mapGet (groupDevices devices).1 k).getD [] =
        devices.filter (fun d => decide (d.RackID ≠ 0) && decide (d.RackID = k)) := by
  induction devices using List.reverseRecOn with
  | nil => exact ⟨rfl, fun k => rfl⟩
  | append_singleton ds d ih =>
    rw [groupDevices_append]
    by_cases h : d.RackID ≠ 0
    · rw [if_pos h]
      refine ⟨?_, ?_⟩
      · have h' : ¬ d.RackID = 0 := h
        simp [ih.1, List.filter_append, h']
      · intro k
        rw [mapGet_mapSet, List.filter_append]
        by_cases hk : d.RackID = k
        · subst hk
          simp [ih.2, h, List.filter_cons]
        · simp [ih.2, hk, List.filter_cons]
    · rw [if_neg h]
      have h' : d.RackID = 0 := not_not.1 h
      refine ⟨?_, ?_⟩
      · simp [ih.1, List.filter_append, h']
      · intro k
        simp [ih.2, List.filter_append, h']

theorem foldl_append_singleton {α β : Type} (f : α → β) (l : List α) (init : List β) :
    l.foldl (fun acc x => acc ++ [f x]) init = init ++ l.map f := by
  induction l generalizing init with
  | nil => simp
  | cons x xs ih => simp [ih]

theorem buildRackGroups_eq (racks : List Rack) (m : List (Int × List Device)) :
    buildRackGroups racks m =
      racks.map (fun rack => RackGroup.mk rack ((mapGet m rack.ID).getD [])) := by
  have hstep : (fun (groups : List RackGroup) (rack : Rack) =>
      match mapGet m rack.ID with
      | some devs => groups ++ [{ Rack := rack, Devices := devs }]
      | none => groups ++ [{ Rack := rack, Devices := [] }]) =
      (fun groups rack => groups ++ [RackGroup.mk rack ((mapGet m rack.ID).getD [])]) := by
    funext groups rack
    cases mapGet m rack.ID <;> rfl
  unfold buildRackGroups
  rw [hstep, foldl_append_singleton]
  simp

theorem dashboardData_RackGroups (rt : Runtime) (sortParam orderParam : Str)
    (devices : List Device) (racks : List Rack) :
    (dashboardData rt sortParam orderParam devices racks).RackGroups =
      racks.map (fun rack => RackGroup.mk rack
        (sort.Slice
          (devices.filter (fun d => decide (d.RackID ≠ 0) && decide (d.RackID = rack.ID)))
          (sortLess rt sortParam (if orderParam = [] then "asc".toList else orderParam)))) := by
  unfold dashboardData
  simp only [buildRackGroups_eq, List.map_map]
  apply List.map_congr_left
  intro rack _
  simp only [Function.comp, (groupDevices_spec devices).2]

theorem dashboardData_Unassigned_perm (rt : Runtime) (sortParam orderParam : Str)
    (devices : List Device) (racks : List Rack) :
    ((dashboardData rt sortParam orderParam devices racks).UnassignedDevices).Perm
      (devices.filter (fun d => decide (d.RackID = 0))) := by
  unfold dashboardData
  dsimp only
  split
  · rw [(groupDevices_spec devices).1]
    exact sortSlice_perm _ _
  · rw [(groupDevices_spec devices).1]

theorem filter_disjoint_perm {α : Type} (p q : α → Bool) (l : List α)
    (h : ∀ x ∈ l, ¬ (p x = true ∧ q x = true)) :
    (l.filter p ++ l.filter q).Perm (l.filter (fun x => p x || q x)) := by
  induction l with
  | nil => exact List.Perm.refl _
  | cons x xs ih =>
    have ih' := ih (fun y hy => h y (List.mem_cons_of_mem _ hy))
    have hx := h x (List.mem_cons_self _ _)
    cases hp : p x <;> cases hq : q x
    · simpa [List.filter_cons, hp, hq] using ih'
    · simp only [List.filter_cons, hp, hq, Bool.or_true, if_true, Bool.false_eq_true, if_false]
      exact List.perm_middle.trans (List.Perm.cons x ih')
    · simp only [List.filter_cons, hp, hq, Bool.or_false, if_true, Bool.false_eq_true, if_false,
        List.cons_append]
      exact List.Perm.cons x ih'
    · exact absurd ⟨hp, hq⟩ hx

theorem racks_flatMap_perm (devices : List Device) (racks : List Rack)
    (hracks : (racks.map (fun r => r.ID)).Nodup) :
    (racks.flatMap (fun rack =>
      devices.filter (fun d => decide (d.RackID ≠ 0) && decide (d.RackID = rack.ID)))).Perm
      (devices.filter (fun d =>
        decide (d.RackID ≠ 0) && decide (d.RackID ∈ racks.map (fun r => r.ID)))) := by
  induction racks with
  | nil => simp
  | cons r rs ih =>
    rw [List.map_cons, List.nodup_cons] at hracks
    rw [List.flatMap_cons]
    refine (List.Perm.append_left _ (ih hracks.2)).trans ?_
    refine (filter_disjoint_perm _ _ devices ?_).trans ?_
    · rintro d _ ⟨h1, h2⟩
      simp only [Bool.and_eq_true, decide_eq_true_eq] at h1 h2
      exact hracks.1 (h1.2 ▸ h2.2)
    · apply List.Perm.of_eq
      apply List.filter_congr
      intro d _
      rw [Bool.eq_iff_iff]
      simp only [Bool.or_eq_true, Bool.and_eq_true, decide_eq_true_eq, List.map_cons,
        List.mem_cons]
      tauto

/-- When the rack identifiers are pairwise distinct and every device with a rack
reference refers to a listed rack, the unassigned group followed by the devices of all
rack groups is a rearrangement of the device list.  In any case a device is in the
unassigned group exactly when it is in the list with `RackID = 0`, there is one group per
listed rack, in the order of the racks, and a device is in the group of a rack exactly when
it is in the list with a non-zero `RackID` equal to the rack's `ID`. -/
theorem grouping_rearranges_listed_devices (rt : Runtime) (sortParam orderParam : Str)
    (devices : List Device) (racks : List Rack)
    (hracks : (racks.map (fun r => r.ID)).Nodup)
    (hdev : ∀ d ∈ devices, d.RackID ≠ 0 → d.RackID ∈ racks.map (fun r => r.ID)) :
    ((dashboardData rt sortParam orderParam devices racks).UnassignedDevices ++
      (dashboardData rt sortParam orderParam devices racks).RackGroups.flatMap
        (fun g => g.Devices)).Perm devices ∧
    (∀ d, d ∈ (dashboardData rt sortParam orderParam devices racks).UnassignedDevices ↔
      d ∈ devices ∧ d.RackID = 0) ∧
    (dashboardData rt sortParam orderParam devices racks).RackGroups.map (fun g => g.Rack) =
      racks ∧
    (∀ g ∈ (dashboardData rt sortParam orderParam devices racks).RackGroups,
      ∀ d, d ∈ g.Devices ↔ d ∈ devices ∧ d.RackID ≠ 0 ∧ d.RackID = g.Rack.ID) := by
  have hun := dashboardData_Unassigned_perm rt sortParam orderParam devices racks
  have hgr := dashboardData_RackGroups rt sortParam orderParam devices racks
  refine ⟨?_, ?_, ?_, ?_⟩
  · rw [hgr, List.flatMap_map]
    have h1 : (racks.flatMap (fun rack => sort.Slice
        (devices.filter (fun d => decide (d.RackID ≠ 0) && decide (d.RackID = rack.ID)))
        (sortLess rt sortParam (if orderParam = [] then "asc".toList else orderParam)))).Perm
        (devices.filter (fun d => !decide (d.RackID = 0))) := by
      refine (List.Perm.flatMap_left racks (fun rack _ => sortSlice_perm _ _)).trans ?_
      refine (racks_flatMap_perm devices racks hracks).trans ?_
      apply List.Perm.of_eq
      apply List.filter_congr
      intro d hd
      by_cases h0 : d.RackID = 0
      · simp [h0]
      · simp [h0, hdev d hd h0]
    exact (List.Perm.append hun h1).trans (List.filter_append_perm _ devices)
  · intro d
    rw [hun.mem_iff, List.mem_filter, decide_eq_true_eq]
  · rw [hgr, List.map_map]
    exact List.map_id _
  · intro g hg d
    rw [hgr] at hg
    obtain ⟨rack, -, rfl⟩ := List.mem_map.1 hg
    rw [(sortSlice_perm _ _).mem_iff, List.mem_filter, Bool.and_eq_true, decide_eq_true_eq,
      decide_eq_true_eq]

/-- C12 does not hold of the code.  In a record store with rack 9 and its one device the
dashboard shows the device in the group of rack 9.  After `DeleteRack(9)` the device still
refers to rack 9, the rack list is empty, and the dashboard has the device neither in the
unassigned group nor in any rack group: it is dropped, where the comment of `DeleteRack`
has the devices of a deleted rack become unassigned.  (With one row in each table the
order of the reads plays no part.) -/
theorem C12_device_of_deleted_rack_is_in_no_group (rt : Runtime)
    (sortParam orderParam : Str) :
    (dashboardData rt sortParam orderParam rackNineStore.devices
        rackNineStore.racks).RackGroups.map
      (fun g => (g.Rack.ID, g.Devices.map (fun d => d.ID))) = [(9, [1])] ∧
    (DeleteRack rackNineStore 9).racks = [] ∧
    (DeleteRack rackNineStore 9).devices = [{ ID := 1, RackID := 9 }] ∧
    (dashboardData rt sortParam orderParam (DeleteRack rackNineStore 9).devices
        (DeleteRack rackNineStore 9).racks).UnassignedDevices = [] ∧
    (dashboardData rt sortParam orderParam (DeleteRack rackNineStore 9).devices
        (DeleteRack rackNineStore 9).racks).RackGroups = [] := by
  refine ⟨rfl, rfl, rfl, rfl, rfl⟩

/-! ### The concurrent sweep -/

theorem scanInit_inv (s : Str) (outcome : Nat → ProbeOutcome) : ScanInv s outcome scanInit := by
  refine ⟨rfl, ?_, by decide, ?_, ?_, ?_⟩
  · simp [scanInit]
  · simpa [scanInit] using List.nodup_range' 1 254
  · simp [scanInit]
  · simp [scanInit]

theorem scanStep_inv (s : Str) (outcome : Nat → ProbeOutcome) (st st' : ScanState)
    (octet : Nat) (h : scanStep s outcome st octet = some st') (hinv : ScanInv s outcome st) :
    ScanInv s outcome st' := by
  obtain ⟨h1, h2, h3, hnd, h4, h5⟩ := hinv
  unfold scanStep at h
  by_cases hs : octet ∈ st.spawned
  · rw [if_pos hs] at h
    by_cases hcap : st.sem < 20
    · rw [if_pos hcap] at h
      cases h
      have hp := List.perm_cons_erase hs
      have hlen := List.length_erase_of_mem hs
      have hpos := List.length_pos_of_mem hs
      have hmove : (st.spawned.erase octet ++ octet :: st.admitted).Perm
          (st.spawned ++ st.admitted) :=
        List.perm_middle.trans (List.Perm.append_right _ hp.symm)
      refine ⟨?_, ?_, ?_, ?_, ?_, ?_⟩
      · dsimp only
        rw [List.length_cons]
        omega
      · dsimp only
        rw [hlen, List.length_cons]
        omega
      · show st.sem + 1 ≤ 20
        omega
      · exact ((List.Perm.append_right st.probing hmove).nodup_iff).2 hnd
      · exact (List.Perm.append_right _ (hmove.map _)).trans h4
      · exact (List.Perm.append_right _
          (((List.Perm.append_right _ hmove).filter _).map _)).trans h5
    · rw [if_neg hcap] at h
      cases h
  · rw [if_neg hs] at h
    by_cases ha : octet ∈ st.admitted
    · rw [if_pos ha] at h
      have hp := List.perm_cons_erase ha
      have hlen := List.length_erase_of_mem ha
      have hpos := List.length_pos_of_mem ha
      have hstart : (((st.spawned ++ st.admitted.erase octet).map (sprintfAddr s)) ++
          (st.started ++ [sprintfAddr s octet])).Perm
          ((List.range' 1 254).map (sprintfAddr s)) := by
        refine List.Perm.trans ?_ h4
        have hm : (st.spawned ++ st.admitted).Perm
            (octet :: (st.spawned ++ st.admitted.erase octet)) :=
          (List.Perm.append_left _ hp).trans List.perm_middle
        refine List.Perm.trans ?_ (List.Perm.append_right _ (hm.map _)).symm
        rw [List.map_cons, ← List.append_assoc]
        exact (List.perm_append_comm).trans (by simp)
      have hm3 : (st.spawned ++ st.admitted ++ st.probing).Perm
          (octet :: (st.spawned ++ st.admitted.erase octet ++ st.probing)) :=
        (List.Perm.append_right _
          ((List.Perm.append_left _ hp).trans List.perm_middle))
      have hnd3 := (List.nodup_cons.1 (hm3.nodup_iff.1 hnd)).2
      by_cases hf : outcome octet = .startFailed
      · rw [if_pos hf] at h
        cases h
        refine ⟨?_, ?_, ?_, hnd3, hstart, ?_⟩
        · dsimp only
          rw [hlen]
          omega
        · dsimp only
          rw [hlen]
          omega
        · show st.sem - 1 ≤ 20
          omega
        · refine List.Perm.trans ?_ h5
          refine List.Perm.append_right _ (List.Perm.map _ ?_)
          have hm : (st.spawned ++ st.admitted ++ st.probing).Perm
              (octet :: (st.spawned ++ st.admitted.erase octet ++ st.probing)) :=
            (List.Perm.append_right _
              ((List.Perm.append_left _ hp).trans List.perm_middle))
          refine List.Perm.trans ?_ (hm.filter _).symm
          rw [List.filter_cons]
          simp [hf]
      · rw [if_neg hf] at h
        cases h
        have hmv : (st.spawned ++ st.admitted.erase octet ++ octet :: st.probing).Perm
            (st.spawned ++ st.admitted ++ st.probing) :=
          List.perm_middle.trans hm3.symm
        refine ⟨?_, ?_, h3, hmv.nodup_iff.2 hnd, hstart, ?_⟩
        · dsimp only
          rw [hlen, List.length_cons]
          omega
        · dsimp only
          rw [hlen, List.length_cons]
          omega
        · refine List.Perm.trans ?_ h5
          refine List.Perm.append_right _ (List.Perm.map _ (List.Perm.filter _ ?_))
          show (st.spawned ++ st.admitted.erase octet ++ octet :: st.probing).Perm _
          refine List.perm_middle.trans ?_
          refine List.Perm.trans ?_ (List.Perm.append_right _
            ((List.Perm.append_left st.spawned hp).trans List.perm_middle)).symm
          simp
    · rw [if_neg ha] at h
      by_cases hb : octet ∈ st.probing
      · rw [if_pos hb] at h
        cases h
        have hp := List.perm_cons_erase hb
        have hlen := List.length_erase_of_mem hb
        have hpos := List.length_pos_of_mem hb
        have hm0 : (st.spawned ++ st.admitted ++ st.probing).Perm
            (octet :: (st.spawned ++ st.admitted ++ st.probing.erase octet)) :=
          (List.Perm.append_left _ hp).trans List.perm_middle
        refine ⟨?_, ?_, ?_, (List.nodup_cons.1 (hm0.nodup_iff.1 hnd)).2, h4, ?_⟩
        · dsimp only
          rw [hlen]
          omega
        · dsimp only
          rw [hlen]
          omega
        · show st.sem - 1 ≤ 20
          omega
        · refine List.Perm.trans ?_ h5
          have hm : (st.spawned ++ st.admitted ++ st.probing).Perm
              (octet :: (st.spawned ++ st.admitted ++ st.probing.erase octet)) :=
            (List.Perm.append_left _ hp).trans List.perm_middle
          refine List.Perm.trans ?_
            (List.Perm.append_right _ ((hm.filter _).map _)).symm
          by_cases hok : outcome octet = .exitedOk
          · simp only [hok, if_true, List.filter_cons, decide_True, List.map_cons,
              List.cons_append]
            rw [← List.append_assoc]
            exact List.perm_append_comm.trans (by simp)
          · simp [hok, List.filter_cons]
      · rw [if_neg hb] at h
        cases h

theorem scanRun_inv (s : Str) (outcome : Nat → ProbeOutcome) (schedule : List Nat)
    (st st' : ScanState) (h : scanRun s outcome st schedule = some st')
    (hinv : ScanInv s outcome st) : ScanInv s outcome st' := by
  induction schedule generalizing st with
  | nil =>
    simp only [scanRun, Option.some.injEq] at h
    exact h ▸ hinv
  | cons i rest ih =>
    unfold scanRun at h
    cases hstep : scanStep s outcome st i with
    | none => rw [hstep] at h; cases h
    | some st1 =>
      rw [hstep] at h
      exact ih st1 h (scanStep_inv s outcome st st1 i hstep hinv)

theorem scanRun_append (s : Str) (outcome : Nat → ProbeOutcome) (pre rest : List Nat)
    (st st1 : ScanState) (h : scanRun s outcome st pre = some st1) :
    scanRun s outcome st (pre ++ rest) = scanRun s outcome st1 rest := by
  induction pre generalizing st with
  | nil =>
    simp only [scanRun, Option.some.injEq] at h
    rw [h]; rfl
  | cons i pre ih =>
    rw [List.cons_append]
    unfold scanRun at h
    cases hstep : scanStep s outcome st i with
    | none => rw [hstep] at h; cases h
    | some st2 =>
      rw [hstep] at h
      have hcons : scanRun s outcome st (i :: (pre ++ rest)) =
          scanRun s outcome st2 (pre ++ rest) := by
        simp only [scanRun, hstep]
      rw [hcons]
      exact ih st2 h

theorem scanStep_measure (s : Str) (outcome : Nat → ProbeOutcome) (st st' : ScanState)
    (octet : Nat) (h : scanStep s outcome st octet = some st') :
    scanMeasure st' < scanMeasure st := by
  unfold scanStep at h
  unfold scanMeasure
  by_cases hs : octet ∈ st.spawned
  · rw [if_pos hs] at h
    by_cases hcap : st.sem < 20
    · rw [if_pos hcap] at h
      cases h
      have hlen := List.length_erase_of_mem hs
      have hpos := List.length_pos_of_mem hs
      dsimp only
      rw [hlen, List.length_cons]
      omega
    · rw [if_neg hcap] at h
      cases h
  · rw [if_neg hs] at h
    by_cases ha : octet ∈ st.admitted
    · rw [if_pos ha] at h
      have hlen := List.length_erase_of_mem ha
      have hpos := List.length_pos_of_mem ha
      by_cases hf : outcome octet = .startFailed
      · rw [if_pos hf] at h
        cases h
        dsimp only
        rw [hlen]
        omega
      · rw [if_neg hf] at h
        cases h
        dsimp only
        rw [hlen, List.length_cons]
        omega
    · rw [if_neg ha] at h
      by_cases hb : octet ∈ st.probing
      · rw [if_pos hb] at h
        cases h
        have hlen := List.length_erase_of_mem hb
        have hpos := List.length_pos_of_mem hb
        dsimp only
        rw [hlen]
        omega
      · rw [if_neg hb] at h
        cases h

theorem scanRun_length (s : Str) (outcome : Nat → ProbeOutcome) (schedule : List Nat)
    (st st' : ScanState) (h : scanRun s outcome st schedule = some st') :
    schedule.length + scanMeasure st' ≤ scanMeasure st := by
  induction schedule generalizing st with
  | nil =>
    simp only [scanRun, Option.some.injEq] at h
    rw [h]; simp
  | cons i rest ih =>
    unfold scanRun at h
    cases hstep : scanStep s outcome st i with
    | none => rw [hstep] at h; cases h
    | some st1 =>
      rw [hstep] at h
      have := ih st1 h
      have := scanStep_measure s outcome st st1 i hstep
      rw [List.length_cons]
      omega

theorem scanStep_enabled (s : Str) (outcome : Nat → ProbeOutcome) (st : ScanState)
    (hinv : ScanInv s outcome st) (hwg : st.wg ≠ 0) :
    ∃ i st', scanStep s outcome st i = some st' := by
  obtain ⟨h1, h2, h3, hnd, -, -⟩ := hinv
  have hdis := List.nodup_append.1 hnd
  have hdis' := List.nodup_append.1 hdis.1
  cases hp : st.probing with
  | cons i ps =>
    have hi : i ∈ st.probing := by rw [hp]; exact List.mem_cons_self _ _
    have hs : i ∉ st.spawned := fun hm =>
      hdis.2.2 (List.mem_append_left _ hm) hi
    have ha : i ∉ st.admitted := fun hm =>
      hdis.2.2 (List.mem_append_right _ hm) hi
    refine ⟨i, ?_⟩
    unfold scanStep
    rw [if_neg hs, if_neg ha, if_pos hi]
    exact ⟨_, rfl⟩
  | nil =>
    cases hadm : st.admitted with
    | cons i as =>
      have hi : i ∈ st.admitted := by rw [hadm]; exact List.mem_cons_self _ _
      have hs : i ∉ st.spawned := fun hm => hdis'.2.2 hm hi
      unfold scanStep
      by_cases hf : outcome i = .startFailed
      · refine ⟨i, ?_⟩
        rw [if_neg hs, if_pos hi, if_pos hf]
        exact ⟨_, rfl⟩
      · refine ⟨i, ?_⟩
        rw [if_neg hs, if_pos hi, if_neg hf]
        exact ⟨_, rfl⟩
    | nil =>
      cases hsp : st.spawned with
      | nil =>
        rw [hp, hadm, hsp] at h2
        exact absurd h2 hwg
      | cons i ss =>
        have hi : i ∈ st.spawned := by rw [hsp]; exact List.mem_cons_self _ _
        have hsem : st.sem < 20 := by
          rw [h1, hp, hadm]
          decide
        refine ⟨i, ?_⟩
        unfold scanStep
        rw [if_pos hi, if_pos hsem]
        exact ⟨_, rfl⟩

theorem scan_completes (s : Str) (outcome : Nat → ProbeOutcome) (n : Nat) (st : ScanState)
    (hn : scanMeasure st ≤ n) (hinv : ScanInv s outcome st) :
    ∃ rest st', scanRun s outcome st rest = some st' ∧ st'.wg = 0 := by
  induction n generalizing st with
  | zero =>
    refine ⟨[], st, rfl, ?_⟩
    obtain ⟨-, h2, -⟩ := hinv
    unfold scanMeasure at hn
    omega
  | succ n ih =>
    by_cases hwg : st.wg = 0
    · exact ⟨[], st, rfl, hwg⟩
    · obtain ⟨i, st1, hstep⟩ := scanStep_enabled s outcome st hinv hwg
      have hm := scanStep_measure s outcome st st1 i hstep
      obtain ⟨rest, st', hrun, hdone⟩ := ih st1 (by omega)
        (scanStep_inv s outcome st st1 i hstep hinv)
      refine ⟨i :: rest, st', ?_, hdone⟩
      unfold scanRun
      rw [hstep]
      exact hrun

set_option maxRecDepth 1000000 in
theorem decimalValue_fmtDecimal : ∀ i, i < 255 → decimalValue (fmtDecimal i) = i := by
  decide

theorem sprintfAddr_injOn (s : Str) (i j : Nat) (hi : i ∈ List.range' 1 254)
    (hj : j ∈ List.range' 1 254) (h : sprintfAddr s i = sprintfAddr s j) : i = j := by
  unfold sprintfAddr at h
  have h' := List.append_cancel_left h
  rw [List.cons.injEq] at h'
  have hi' : i < 255 := by
    have := List.mem_range'_1.1 hi
    omega
  have hj' : j < 255 := by
    have := List.mem_range'_1.1 hj
    omega
  rw [← decimalValue_fmtDecimal i hi', ← decimalValue_fmtDecimal j hj', h'.2]

theorem addresses_nodup (s : Str) : ((List.range' 1 254).map (sprintfAddr s)).Nodup :=
  List.Nodup.map_on (fun i hi j hj h => sprintfAddr_injOn s i j hi hj h)
    (List.nodup_range' 1 254)

theorem scanStep_cases (s : Str) (outcome : Nat → ProbeOutcome) (st st' : ScanState)
    (octet : Nat) (h : scanStep s outcome st octet = some st') :
    (octet ∈ st.spawned ∧ st.sem < 20 ∧
      st' = { st with spawned := st.spawned.erase octet, admitted := octet :: st.admitted,
                      sem := st.sem + 1 }) ∨
    (octet ∉ st.spawned ∧ octet ∈ st.admitted ∧ outcome octet = .startFailed ∧
      st' = { st with admitted := st.admitted.erase octet, sem := st.sem - 1,
                      wg := st.wg - 1,
                      started := st.started ++ [sprintfAddr s octet] }) ∨
    (octet ∉ st.spawned ∧ octet ∈ st.admitted ∧ outcome octet ≠ .startFailed ∧
      st' = { st with admitted := st.admitted.erase octet, probing := octet :: st.probing,
                      started := st.started ++ [sprintfAddr s octet] }) ∨
    (octet ∉ st.spawned ∧ octet ∉ st.admitted ∧ octet ∈ st.probing ∧
      st' = { st with probing := st.probing.erase octet, sem := st.sem - 1, wg := st.wg - 1,
                      activeIPs :=
                        if outcome octet = .exitedOk then
                          st.activeIPs ++ [sprintfAddr s octet]
                        else st.activeIPs }) := by
  unfold scanStep at h
  by_cases hs : octet ∈ st.spawned
  · rw [if_pos hs] at h
    by_cases hcap : st.sem < 20
    · rw [if_pos hcap] at h
      cases h
      exact Or.inl ⟨hs, hcap, rfl⟩
    · rw [if_neg hcap] at h
      cases h
  · rw [if_neg hs] at h
    by_cases ha : octet ∈ st.admitted
    · rw [if_pos ha] at h
      by_cases hf : outcome octet = .startFailed
      · rw [if_pos hf] at h
        cases h
        exact Or.inr (Or.inl ⟨hs, ha, hf, rfl⟩)
      · rw [if_neg hf] at h
        cases h
        exact Or.inr (Or.inr (Or.inl ⟨hs, ha, hf, rfl⟩))
    · rw [if_neg ha] at h
      by_cases hb : octet ∈ st.probing
      · rw [if_pos hb] at h
        cases h
        exact Or.inr (Or.inr (Or.inr ⟨hs, ha, hb, rfl⟩))
      · rw [if_neg hb] at h
        cases h

theorem scan_done_iff (s : Str) (outcome : Nat → ProbeOutcome) (st : ScanState)
    (hinv : ScanInv s outcome st) :
    st.wg = 0 ↔ st.spawned = [] ∧ st.admitted = [] ∧ st.probing = [] := by
  obtain ⟨-, h2, -⟩ := hinv
  constructor
  · intro h
    rw [h] at h2
    refine ⟨List.eq_nil_of_length_eq_zero (by omega), List.eq_nil_of_length_eq_zero (by omega),
      List.eq_nil_of_length_eq_zero (by omega)⟩
  · rintro ⟨ha, hb, hc⟩
    rw [h2, ha, hb, hc]
    rfl

/-- C14: in every complete execution of the sweep, whatever the outcome of each probe,
`cmd.Start()` is called exactly once on each of the 254 addresses `s.1` .. `s.254` of the
inferred subnet `s`; the reply has the success flag set, and its list of active addresses
has no duplicates and is, up to order, the list of the addresses whose probe exited
successfully before the deadline: start failures, error exits and timeouts contribute
nothing.  Every execution, however far it has got, can be continued to a complete one,
after which the handler replies. -/
theorem C14_sweep_probes_each_address_once (rt : Runtime) (outcome : Nat → ProbeOutcome)
    (schedule : List Nat) (devices : List Device) (reply : ScanReply)
    (h : ScanSubnetHandler rt outcome schedule (.ok devices) = some reply) :
    (∃ st, scanRun (scanTargetSubnet rt devices) outcome scanInit schedule = some st ∧
      st.started.Perm ((List.range' 1 254).map (sprintfAddr (scanTargetSubnet rt devices))) ∧
      st.started.Nodup ∧ st.started.length = 254 ∧
      reply = .json true st.activeIPs ∧
      st.activeIPs.Nodup ∧
      st.activeIPs.Perm
        (((List.range' 1 254).filter (fun i => decide (outcome i = .exitedOk))).map
          (sprintfAddr (scanTargetSubnet rt devices)))) ∧
    (∀ pre st0, scanRun (scanTargetSubnet rt devices) outcome scanInit pre = some st0 →
      ∃ rest reply', ScanSubnetHandler rt outcome (pre ++ rest) (.ok devices) =
        some reply') := by
  constructor
  · unfold ScanSubnetHandler at h
    dsimp only at h
    cases hrun : scanRun (scanTargetSubnet rt devices) outcome scanInit schedule with
    | none => rw [hrun] at h; cases h
    | some st =>
      rw [hrun] at h
      dsimp only at h
      by_cases hwg : st.wg = 0
      · rw [if_pos hwg] at h
        cases h
        have hinv := scanRun_inv _ outcome schedule scanInit st hrun (scanInit_inv _ outcome)
        obtain ⟨ha, hb, hc⟩ := (scan_done_iff _ outcome st hinv).1 hwg
        obtain ⟨-, -, -, -, h4, h5⟩ := hinv
        rw [ha, hb] at h4
        rw [ha, hb, hc] at h5
        simp only [List.append_nil, List.map_nil, List.nil_append, List.filter_nil] at h4 h5
        refine ⟨st, rfl, h4, h4.nodup_iff.2 (addresses_nodup _), ?_, rfl, ?_, h5⟩
        · rw [h4.length_eq]; simp
        · refine h5.nodup_iff.2 ?_
          exact List.Nodup.sublist (List.Sublist.map _ (List.filter_sublist _))
            (addresses_nodup _)
      · rw [if_neg hwg] at h
        cases h
  · intro pre st0 hpre
    have hinv := scanRun_inv _ outcome pre scanInit st0 hpre (scanInit_inv _ outcome)
    obtain ⟨rest, st', hrest, hdone⟩ := scan_completes _ outcome _ st0 (le_refl _) hinv
    refine ⟨rest, .json true st'.activeIPs, ?_⟩
    unfold ScanSubnetHandler
    dsimp only
    rw [scanRun_append _ outcome pre rest scanInit st0 hpre, hrest]
    dsimp only
    rw [if_pos hdone]

/-- C15: in every state that an execution of the sweep reaches, at most 20 probes are
running: the goroutines that hold a slot of `sem`, the running probes among them, are
as many as the channel has elements, at most 20.  A goroutine takes its slot before its
probe is started and only while fewer than 20 slots are taken; a probe is started only by a
goroutine that holds a slot; a goroutine that returns, after a failed start or after its
`select` whatever the outcome, frees its slot.  The wait group is at zero exactly when
every goroutine has returned, no execution has more than 762 steps, and every execution
can be continued until the wait group is at zero. -/
theorem C15_at_most_20_probes_in_flight (s : Str) (outcome : Nat → ProbeOutcome)
    (schedule : List Nat) (st : ScanState)
    (h : scanRun s outcome scanInit schedule = some st) :
    st.probing.length ≤ 20 ∧
    st.admitted.length + st.probing.length = st.sem ∧ st.sem ≤ 20 ∧
    (∀ i st', scanStep s outcome st i = some st' → i ∈ st.spawned →
      st.sem < 20 ∧ st'.sem = st.sem + 1 ∧ i ∈ st'.admitted ∧ st'.started = st.started) ∧
    (∀ i st', scanStep s outcome st i = some st' → st'.started ≠ st.started →
      i ∈ st.admitted ∧ st'.started = st.started ++ [sprintfAddr s i]) ∧
    (∀ i st', scanStep s outcome st i = some st' →
      i ∈ st.probing ∨ (i ∈ st.admitted ∧ outcome i = .startFailed) →
      st'.sem + 1 = st.sem ∧ st'.wg + 1 = st.wg ∧ i ∉ st'.admitted ∧ i ∉ st'.probing) ∧
    (st.wg = 0 ↔ st.spawned = [] ∧ st.admitted = [] ∧ st.probing = []) ∧
    schedule.length ≤ 762 ∧
    (∃ rest st', scanRun s outcome st rest = some st' ∧ st'.wg = 0) := by
  have hinv := scanRun_inv s outcome schedule scanInit st h (scanInit_inv s outcome)
  have hlen := scanRun_length s outcome schedule scanInit st h
  have h1 := hinv.1
  have h2 := hinv.2.1
  have h3 := hinv.2.2.1
  have hnd := hinv.2.2.2.1
  have hdis := List.nodup_append.1 hnd
  have hdis' := List.nodup_append.1 hdis.1
  refine ⟨by omega, h1.symm, h3, ?_, ?_, ?_, scan_done_iff s outcome st hinv, ?_,
    scan_completes s outcome _ st (le_refl _) hinv⟩
  · intro i st' hstep hi
    rcases scanStep_cases s outcome st st' i hstep with ⟨_, hcap, rfl⟩ | ⟨hn, _⟩ |
      ⟨hn, _⟩ | ⟨hn, _⟩
    · exact ⟨hcap, rfl, List.mem_cons_self _ _, rfl⟩
    · exact absurd hi hn
    · exact absurd hi hn
    · exact absurd hi hn
  · intro i st' hstep hne
    rcases scanStep_cases s outcome st st' i hstep with ⟨_, _, rfl⟩ | ⟨_, ha, _, rfl⟩ |
      ⟨_, ha, _, rfl⟩ | ⟨_, _, _, rfl⟩
    · exact absurd rfl hne
    · exact ⟨ha, rfl⟩
    · exact ⟨ha, rfl⟩
    · exact absurd rfl hne
  · intro i st' hstep hi
    rcases scanStep_cases s outcome st st' i hstep with ⟨hs, _, rfl⟩ | ⟨_, ha, _, rfl⟩ |
      ⟨_, ha, hf, rfl⟩ | ⟨_, hna, hb, rfl⟩
    · rcases hi with hi | ⟨hi, _⟩
      · exact absurd hi (fun hm => hdis.2.2 (List.mem_append_left _ hs) hm)
      · exact absurd hi (fun hm => hdis'.2.2 hs hm)
    · have hpos := List.length_pos_of_mem ha
      refine ⟨?_, ?_, ?_, ?_⟩
      · show st.sem - 1 + 1 = st.sem
        omega
      · show st.wg - 1 + 1 = st.wg
        omega
      · exact fun hm => (List.Nodup.mem_erase_iff hdis'.2.1).1 hm |>.1 rfl
      · exact fun hm => hdis.2.2 (List.mem_append_right _ ha) hm
    · rcases hi with hi | ⟨_, hi⟩
      · exact absurd hi (fun hm => hdis.2.2 (List.mem_append_right _ ha) hm)
      · exact absurd hi hf
    · have hpos := List.length_pos_of_mem hb
      refine ⟨?_, ?_, hna, ?_⟩
      · show st.sem - 1 + 1 = st.sem
        omega
      · show st.wg - 1 + 1 = st.wg
        omega
      · exact fun hm => (List.Nodup.mem_erase_iff hdis.2.1).1 hm |>.1 rfl
  · have : scanMeasure scanInit = 762 := by simp [scanMeasure, scanInit]
    omega

set_option maxRecDepth 1000000 in
/-- C14 on the sequential execution with no device recorded, where the even octets answer:
the handler replies with the 127 even addresses of `192.168.1`, and `cmd.Start()` was called
254 times. -/
theorem C14_sweep_probes_each_address_once_witness :
    ∃ st, scanRun (scanTargetSubnet plainRuntime []) sampleOutcome scanInit
        sequentialSchedule = some st ∧
      st.started.length = 254 ∧ st.activeIPs.Nodup ∧
      ScanReply.json true
          (((List.range' 1 254).filter (fun i => decide (i % 2 = 0))).map
            (sprintfAddr "192.168.1".toList)) =
        ScanReply.json true st.activeIPs := by
  obtain ⟨st, hrun, -, -, hlen, hreply, hnd, -⟩ :=
    (C14_sweep_probes_each_address_once plainRuntime sampleOutcome sequentialSchedule []
      (.json true
        (((List.range' 1 254).filter (fun i => decide (i % 2 = 0))).map
          (sprintfAddr "192.168.1".toList)))
      (by decide)).1
  exact ⟨st, hrun, hlen, hnd, hreply⟩

set_option maxRecDepth 1000000 in
/-- C15 after the goroutines of the octets 1 to 20 have each taken a slot: the channel is
full, no more than 20 probes can be running, and the goroutine of octet 21 cannot move. -/
theorem C15_at_most_20_probes_in_flight_witness :
    scanRun "10.0.0".toList sampleOutcome scanInit (List.range' 1 20) = some saturatedState ∧
    saturatedState.sem = 20 ∧ saturatedState.probing.length ≤ 20 ∧
    scanStep "10.0.0".toList sampleOutcome saturatedState 21 = none :=
  ⟨by decide, rfl,
    (C15_at_most_20_probes_in_flight "10.0.0".toList sampleOutcome (List.range' 1 20)
      saturatedState (by decide)).1,
    by decide⟩

end Ipam
